import Mathlib

/-!
# Verification of the IPTV backend core

Shallow embedding of the channel-sync services, the MAG portal client and the
streaming proxy gateway of the repository, together with proofs settling the
frozen claims C1..C10.

Conventions of the embedding:
* JavaScript values flowing through the loosely-typed channel records are
  modelled by `JVal` (with an explicit `jundef` for missing fields and the
  JS truthiness rules).
* Host-runtime functions (`JSON.parse`, `Math.random`, wall-clock time) are
  explicit parameters of the translated functions.
* Machine time is `Int` milliseconds; JS `Map`/`Set` are association lists.
-/

namespace IPTV

/-! JavaScript runtime values, as far as the channel records need them:
`jundef` is the value of a missing object field.  Arrays and objects carry
their own spine types (`JArr`, `JObj`) so that every function over them is
plain structural recursion. -/
mutual
inductive JVal where
  | jundef : JVal
  | jnull : JVal
  | jbool : Bool → JVal
  | jnum : Int → JVal
  | jstr : String → JVal
  | jarr : JArr → JVal
  | jobj : JObj → JVal

inductive JArr where
  | nil : JArr
  | cons : JVal → JArr → JArr

inductive JObj where
  | nil : JObj
  | cons : String → JVal → JObj → JObj
end

/-- Build an object value from a field list. -/
def mkObj : List (String × JVal) → JObj
  | [] => .nil
  | (n, v) :: rest => .cons n v (mkObj rest)

/-- Object literal notation used by the fixtures. -/
def jobjL (fields : List (String × JVal)) : JVal := .jobj (mkObj fields)

/-- First field of the given name. -/
def JObj.findF : JObj → String → Option JVal
  | .nil, _ => none
  | .cons n v t, name => if n = name then some v else t.findF name

namespace JVal

/-- JS truthiness: `undefined`, `null`, `false`, `0`, `""` are falsy;
objects and arrays are always truthy. -/
def truthy : JVal → Bool
  | jundef => false
  | jnull => false
  | jbool b => b
  | jnum n => n != 0
  | jstr s => s ≠ ""
  | jarr _ => true
  | jobj _ => true

/-- Field access `v.f`: `undefined` when the field is missing or the value is
not an object (property reads on primitives yield `undefined` for the fields
used here). -/
def getF : JVal → String → JVal
  | jobj fields, name =>
      match fields.findF name with
      | some v => v
      | none => jundef
  | _, _ => jundef

/-- JS `a || b`: the first operand when truthy, otherwise the second. -/
def jsOr (a b : JVal) : JVal := if a.truthy then a else b

/-- Is the value `undefined` (i.e. was the field absent)? -/
def isUndef : JVal → Bool
  | jundef => true
  | _ => false

/-- JS strict equality `===` as used by the code: every comparison in the
source has a primitive literal on one side, and `===` between an object (or
array) and a fresh primitive is `false`, so object identity never matters. -/
def jsEq : JVal → JVal → Bool
  | jundef, jundef => true
  | jnull, jnull => true
  | jbool a, jbool b => a == b
  | jnum a, jnum b => a == b
  | jstr a, jstr b => a == b
  | _, _ => false

end JVal

/-- Base-10 digits of `n`, little-endian, by fuel-bounded structural
recursion (so that closed instances evaluate inside the kernel). -/
def natDigitsAux : Nat → Nat → List Nat
  | 0, _ => []
  | fuel + 1, n => if n = 0 then [] else n % 10 :: natDigitsAux fuel (n / 10)

def natDigits (n : Nat) : List Nat := natDigitsAux n n

/-- Decimal digit characters of a natural number, most-significant first
(the rendering JS applies to a non-negative integer in a template literal). -/
def natToString (n : Nat) : String :=
  if n = 0 then "0"
  else String.mk ((natDigits n).reverse.map (fun d => Char.ofNat (48 + d)))

/-! JS `String(v)` / `v.toString()` conversion: arrays render as
`Array.prototype.join(',')`, where `null`/`undefined` elements render empty. -/
mutual
def jsToString : JVal → String
  | .jundef => "undefined"
  | .jnull => "null"
  | .jbool b => if b then "true" else "false"
  | .jnum n => if n < 0 then "-" ++ natToString n.natAbs else natToString n.natAbs
  | .jstr s => s
  | .jarr l => jsToStringArr l
  | .jobj _ => "[object Object]"

def jsToStringElem : JVal → String
  | .jundef => ""
  | .jnull => ""
  | v => jsToString v

def jsToStringArr : JArr → String
  | .nil => ""
  | .cons v .nil => jsToStringElem v
  | .cons v (.cons w t) => jsToStringElem v ++ "," ++ jsToStringArr (.cons w t)
end


/-! ## String scanning helpers shared by the embedded functions -/

/-- Does `p` occur as a contiguous run inside `l`? (JS `String.prototype.includes`.) -/
def hasSubstr (l p : List Char) : Bool :=
  (List.range (l.length + 1)).any (fun i => (l.drop i).take p.length == p)

/-- JS `s.includes(sub)`. -/
def strIncludes (s sub : String) : Bool := hasSubstr s.data sub.data

/-- JS `String.prototype.trim` on the character list. -/
def trimL (l : List Char) : List Char :=
  ((l.dropWhile Char.isWhitespace).reverse.dropWhile Char.isWhitespace).reverse

/-- JS `s.trim()`. -/
def jsTrim (s : String) : String := String.mk (trimL s.data)

/-- JS `s.startsWith(p)`. -/
def strStartsWith (s p : String) : Bool := s.data.take p.data.length == p.data

/-- JS `s.split(c)` for a single-character separator. -/
def splitOnCharAux (c : Char) : List Char → List Char → List String
  | [], acc => [String.mk acc.reverse]
  | x :: rest, acc =>
      if x = c then String.mk acc.reverse :: splitOnCharAux c rest []
      else splitOnCharAux c rest (x :: acc)

def splitOnChar (c : Char) (s : String) : List String := splitOnCharAux c s.data []

/-- JS template-literal rendering of a possibly-undefined query parameter
(`undefined` interpolates as the text "undefined"). -/
def qRender (o : Option String) : String := o.getD "undefined"

/-- JS truthiness of a query parameter: absent (`undefined`) or empty string
are falsy. -/
def qTruthy (o : Option String) : Bool :=
  match o with
  | none => false
  | some s => s ≠ ""

/-! ## Stream proxy gateway (unnamed/part_000)

The proxy route of `backend/app.js`: active-connection tracking keyed by
`mac_channelId`, the force-kill helper, the duplicate-URL guard, and the
upstream fetch with its (dead) 404 retry branch.  Upstream I/O is an explicit
environment `String → UpOutcome`; the observable effects of a request are
recorded in a `PAct` trace. -/

/-- One tracked Active Connection (`activeConnections` map value).
`streamDestroyable` models `typeof conn.stream.destroy === 'function'`,
`resWritableEnded` models `conn.res.writableEnded`. -/
structure Conn where
  streamDestroyable : Bool
  resWritableEnded : Bool
  timestamp : Int
  url : String
  mac : Option String
  channelId : String
  deriving Repr, DecidableEq

/-- Observable side effects of the proxy route, in program order. -/
inductive PAct where
  | destroyUpstream (key : String)
  | endDownstream (key : String)
  | deleteConn (key : String)
  | delay (ms : Nat)
  | openFetch (url : String)
  | storeConn (key : String)
  deriving Repr, DecidableEq

/-- The `activeConnections` JS `Map`, as an association list with unique keys. -/
abbrev ConnMap := List (String × Conn)

/-- `` `${mac}_${channelId}` `` -/
def connKey (mac channelId : String) : String := mac ++ "_" ++ channelId

/-- JS `Map.set`: replace in place when present, append when absent. -/
def mapSet {β : Type} (m : List (String × β)) (key : String) (v : β) :
    List (String × β) :=
  if m.any (fun p => p.1 = key) then
    m.map (fun p => if p.1 = key then (key, v) else p)
  else m ++ [(key, v)]

/-- JS `Map.get`. -/
def mapGet {β : Type} (m : List (String × β)) (key : String) : Option β :=
  (m.find? (fun p => p.1 = key)).map (·.2)

/-- `killStream(mac, channelId)`: destroy the upstream stream, end the client
response if still writable, drop the map entry; returns whether a connection
existed.  (part_000 lines 50–77) -/
def killStream (conns : ConnMap) (mac channelId : String) :
    Bool × ConnMap × List PAct :=
  let key := connKey mac channelId
  match conns.find? (fun p => p.1 = key) with
  | some (_, conn) =>
      (true,
       conns.filter (fun p => p.1 ≠ key),
       (if conn.streamDestroyable then [PAct.destroyUpstream key] else []) ++
       (if !conn.resWritableEnded then [PAct.endDownstream key] else []) ++
       [PAct.deleteConn key])
  | none => (false, conns, [])

/-- Response of the `DELETE /api/proxy/stream/:mac/:channelId` endpoint. -/
structure KillResp where
  success : Bool
  message : String
  deriving Repr, DecidableEq

/-- The kill endpoint (part_000 lines 80–90). -/
def deleteStreamEndpoint (conns : ConnMap) (mac channelId : String) :
    ConnMap × KillResp × List PAct :=
  let r := killStream conns mac channelId
  (r.2.1,
   ⟨r.1, if r.1 then "Stream terminated" else "Stream not found"⟩,
   r.2.2)

/-- First match of `/stream=(\d+)/`: scan for the literal `stream=` followed
by at least one digit; the capture is the maximal digit run. -/
def streamDigitsAux : List Char → Option String
  | [] => none
  | c :: rest =>
      match c :: rest with
      | 's' :: 't' :: 'r' :: 'e' :: 'a' :: 'm' :: '=' :: tail =>
          let ds := tail.takeWhile Char.isDigit
          if ds.isEmpty then streamDigitsAux rest else some (String.mk ds)
      | _ => streamDigitsAux rest

def matchStreamDigits (s : String) : Option String := streamDigitsAux s.data

/-- Match of `/\/(\d+)(?:\.ts)?$/`: an optional `.ts` suffix is stripped, then
the maximal trailing digit run is captured provided it is non-empty and
preceded by `/`. -/
def matchTrailingDigits (s : String) : Option String :=
  let l := s.data
  let l' := match l.reverse with
            | 's' :: 't' :: '.' :: r => r.reverse
            | _ => l
  let ds := (l'.reverse.takeWhile Char.isDigit).reverse
  if ds.isEmpty then none
  else
    match (l'.take (l'.length - ds.length)).getLast? with
    | some '/' => some (String.mk ds)
    | _ => none

/-- Channel-id resolution when the `channelId` query parameter is falsy
(part_000 lines 96–99). -/
def resolveChannelId (decodedUrl : String) : String :=
  match matchStreamDigits decodedUrl with
  | some d => d
  | none =>
      match matchTrailingDigits decodedUrl with
      | some d => d
      | none => "unknown"

/-- Concatenated matches of `/[?&](stream|play_token)=[^&]+/g` over the URL.
Fuel-bounded (any fuel at least the list length is exact): the scan either
advances one character or jumps past a match, so each step consumes fuel. -/
def urlKeyMatchesAux : Nat → List Char → List Char
  | 0, _ => []
  | _ + 1, [] => []
  | fuel + 1, c :: rest =>
      if c = '?' ∨ c = '&' then
        match rest with
        | 's' :: 't' :: 'r' :: 'e' :: 'a' :: 'm' :: '=' :: tail =>
            let v := tail.takeWhile (· ≠ '&')
            if v.isEmpty then urlKeyMatchesAux fuel rest
            else (c :: ('s' :: 't' :: 'r' :: 'e' :: 'a' :: 'm' :: '=' :: v)) ++
                 urlKeyMatchesAux fuel (tail.drop v.length)
        | 'p' :: 'l' :: 'a' :: 'y' :: '_' :: 't' :: 'o' :: 'k' :: 'e' :: 'n' :: '=' :: tail =>
            let v := tail.takeWhile (· ≠ '&')
            if v.isEmpty then urlKeyMatchesAux fuel rest
            else (c :: ('p' :: 'l' :: 'a' :: 'y' :: '_' :: 't' :: 'o' :: 'k' :: 'e' :: 'n' :: '=' :: v)) ++
                 urlKeyMatchesAux fuel (tail.drop v.length)
        | _ => urlKeyMatchesAux fuel rest
      else urlKeyMatchesAux fuel rest

/-- Duplicate-guard key (part_000 line 114):
`decodedUrl.split('?')[0] + (decodedUrl.match(/[?&](stream|play_token)=[^&]+/g) || []).join('')`. -/
def urlKey (decodedUrl : String) : String :=
  String.mk (decodedUrl.data.takeWhile (· ≠ '?')) ++
    String.mk (urlKeyMatchesAux decodedUrl.data.length decodedUrl.data)

/-- `^https?:\/\/` — split a URL into scheme and remainder. -/
def stripScheme : List Char → Option (String × List Char)
  | 'h' :: 't' :: 't' :: 'p' :: 's' :: ':' :: '/' :: '/' :: r => some ("https://", r)
  | 'h' :: 't' :: 't' :: 'p' :: ':' :: '/' :: '/' :: r => some ("http://", r)
  | _ => none

/-- `/^\d+(\.(ts|m3u8|mp4))?$/i` on a path segment. -/
def digitsThenOptExt (s : String) : Bool :=
  let l := s.data
  let ds := l.takeWhile Char.isDigit
  if ds.isEmpty then false
  else
    let rest := l.drop ds.length
    rest.isEmpty || decide (String.mk (rest.map Char.toLower) ∈ [".ts", ".m3u8", ".mp4"])

/-- `isXtreamUrl` (part_000 lines 23–35). -/
def isXtreamUrl (url : String) : Bool :=
  if url = "" then false
  else
    let base := url.data.takeWhile (· ≠ '?')
    match stripScheme base with
    | none => false
    | some (_, rest) =>
        let host := rest.takeWhile (· ≠ '/')
        if host.isEmpty then false
        else
          let tail := rest.drop host.length
          let parts := (splitOnCharAux '/' tail []).filter (· ≠ "")
          if parts.length = 4 then decide (parts.head? = some "live")
          else if parts.length = 3 then digitsThenOptExt (parts.getLast?.getD "")
          else false

/-- The 404-retry URL rewrite (part_000 lines 178–183):
match `^(https?:\/\/[^/]+)(\/[^/]+\/[^/]+\/\d+)(\.ts)?$` against the original
URL and build `base + '/live' + cleanPath + '.ts'`. -/
def altUrlOf (originalUrl : String) : Option String :=
  match stripScheme originalUrl.data with
  | none => none
  | some (scheme, rest) =>
      let host := rest.takeWhile (· ≠ '/')
      if host.isEmpty then none
      else
        let tail := rest.drop host.length
        match splitOnCharAux '/' tail [] with
        | ["", s1, s2, last] =>
            if s1 = "" ∨ s2 = "" then none
            else
              let ds := last.data.takeWhile Char.isDigit
              let restl := last.data.drop ds.length
              if ds.isEmpty then none
              else if restl = [] ∨ restl = ['.', 't', 's'] then
                some (scheme ++ String.mk host ++ "/live/" ++ s1 ++ "/" ++ s2 ++ "/" ++
                      String.mk ds ++ ".ts")
              else none
        | _ => none

/-- Final outcome of an upstream HTTP GET, as the environment decides it. -/
inductive UpOutcome where
  | respond (status : Nat)
  | netfail (code : Option String)

/-- The error object an axios call rejects with: `response.status` is present
only when `validateStatus` rejected the response, `code` for network errors. -/
structure AxErr where
  status : Option Nat
  code : Option String
  deriving Repr, DecidableEq

/-- `attemptFetch` (part_000 lines 37–47): `validateStatus: s => s < 500`
means every response below 500 resolves; only responses ≥ 500 and network
failures reject. -/
def attemptFetch (upstream : String → UpOutcome) (url : String) : Except AxErr Nat :=
  match upstream url with
  | .respond s => if s < 500 then .ok s else .error ⟨some s, none⟩
  | .netfail c => .error ⟨none, c⟩

/-- Query parameters of `GET /api/proxy/stream` (omitting `ua_index`, which
only selects a user-agent header). `url` is taken already URI-decoded. -/
structure Query where
  url : Option String
  mac : Option String
  type : Option String
  channelId : Option String
  deriving Repr, DecidableEq

/-- The channel id a stream request ends up with: the `channelId` query
parameter when truthy, else the id extracted from the URL (lines 96–99). -/
def reqChannelId (q : Query) : String :=
  if qTruthy q.channelId then q.channelId.getD ""
  else resolveChannelId (q.url.getD "")

/-- Module state of the proxy: the active-connection map and the set of URL
keys currently in `fetchingUrls` (expiry is handled by the temporal model
below; this synchronous view receives the set as it stands on arrival). -/
structure GState where
  conns : ConnMap
  fetching : List String

/-- Client-visible outcome of a stream request. `pipe c u` is a piped stream
whose HTTP status to the client is `c` while the upstream answered `u`. -/
inductive HttpResp where
  | badRequest
  | dup429
  | pipe (clientStatus upstreamStatus : Nat)
  | errorResp (status : Nat)
  deriving Repr, DecidableEq

/-- The outer catch block (part_000 lines 251–267). -/
def errorResponse (e : AxErr) : HttpResp :=
  if e.status = some 401 then .errorResp 401
  else if e.status = some 403 then .errorResp 403
  else if e.status = some 404 then .errorResp 404
  else if e.code = some "ECONNRESET" then .errorResp 502
  else .errorResp 500

/-- `GET /api/proxy/stream` (part_000 lines 92–243), as one synchronous pass:
resolve the channel id, force-kill any existing connection for
`(mac, channelId)` and wait 200 ms, consult the duplicate-URL guard, fetch
upstream (with the xtream `.ts` append and the 404-retry branch), and on
success store the Active Connection and pipe. -/
def handleStream (st : GState) (q : Query) (upstream : String → UpOutcome) (now : Int) :
    GState × HttpResp × List PAct :=
  if ¬ qTruthy q.url then (st, .badRequest, [])
  else
    let decodedUrl := q.url.getD ""
    let originalUrl := decodedUrl
    let channelId := reqChannelId q
    let killPhase :=
      if qTruthy q.mac ∧ channelId ≠ "unknown" then
        let r := killStream st.conns (q.mac.getD "") channelId
        (r.2.1, r.2.2 ++ [PAct.delay 200])
      else (st.conns, ([] : List PAct))
    let conns1 := killPhase.1
    let acts1 := killPhase.2
    let key := urlKey decodedUrl
    if key ∈ st.fetching then
      ({ conns := conns1, fetching := st.fetching }, .dup429, acts1)
    else
      let fetching1 := st.fetching ++ [key]
      let streamType :=
        if qTruthy q.type then q.type.getD ""
        else if isXtreamUrl decodedUrl then "xtream" else "mag"
      let decodedUrl2 :=
        if streamType = "xtream" ∧
           ¬(strIncludes decodedUrl ".ts" ∨ strIncludes decodedUrl ".m3u8" ∨
             strIncludes decodedUrl ".mp4") ∧
           (let lastSegment := ((splitOnChar '/' decodedUrl).getLast?).getD ""
            lastSegment ≠ "" ∧ lastSegment.data.all Char.isDigit)
        then decodedUrl ++ ".ts" else decodedUrl
      let store := fun (acts : List PAct) (s : Nat) =>
        let connectionKey := connKey (qRender q.mac) channelId
        let conn : Conn := { streamDestroyable := true, resWritableEnded := false,
                             timestamp := now, url := decodedUrl2, mac := q.mac,
                             channelId := channelId }
        ({ conns := mapSet conns1 connectionKey conn,
           fetching := fetching1.filter (· ≠ key) },
         HttpResp.pipe (if s = 206 then 206 else 200) s,
         acts ++ [PAct.storeConn connectionKey])
      match attemptFetch upstream decodedUrl2 with
      | .ok s => store (acts1 ++ [PAct.openFetch decodedUrl2]) s
      | .error err =>
          let fetching2 := fetching1.filter (· ≠ key)
          let fail := fun (acts : List PAct) =>
            ({ conns := conns1, fetching := fetching2 }, errorResponse err, acts)
          if streamType = "xtream" ∧ err.status = some 404 then
            match altUrlOf originalUrl with
            | some altUrl =>
                match attemptFetch upstream altUrl with
                | .ok s2 => store (acts1 ++ [PAct.openFetch decodedUrl2, PAct.openFetch altUrl]) s2
                | .error _ => fail (acts1 ++ [PAct.openFetch decodedUrl2, PAct.openFetch altUrl])
            | none => fail (acts1 ++ [PAct.openFetch decodedUrl2])
          else fail (acts1 ++ [PAct.openFetch decodedUrl2])

/-! ## Temporal model of the duplicate-URL guard (part_000 lines 110–121,
175, 201)

`fetchingUrls` with the timing made explicit: an entry is added on arrival
with deadline `t + 3000` (the `setTimeout` removal), and removed early when
that request's upstream fetch settles (success, line 201, or failure, line
175).  Events carry the wall-clock instant at which they run on the event
loop; due timeouts fire before an event at a later-or-equal instant. -/

/-- Guard table: key together with its scheduled `setTimeout` removal time. -/
structure TGuard where
  fetching : List (String × Int)

inductive GEvent where
  | arrive (t : Int) (url : String)
  | settle (t : Int) (url : String)
  deriving Repr, DecidableEq

inductive GOut where
  | accepted
  | rejected429
  deriving Repr, DecidableEq

/-- Fire every `setTimeout` whose deadline has been reached by instant `t`. -/
def expireGuard (t : Int) (g : TGuard) : TGuard :=
  ⟨g.fetching.filter (fun p => t < p.2)⟩

/-- One event-loop step of the guard. An arrival is rejected with 429 iff its
URL key is present; otherwise the key is added with a 3 s removal timer and
the request proceeds to open its upstream fetch.  A settle event is the
explicit `fetchingUrls.delete(urlKey)` of the request that was fetching. -/
def guardStep (g : TGuard) : GEvent → TGuard × Option GOut
  | .arrive t url =>
      let g' := expireGuard t g
      let key := urlKey url
      if key ∈ g'.fetching.map Prod.fst then (g', some .rejected429)
      else (⟨g'.fetching ++ [(key, t + 3000)]⟩, some .accepted)
  | .settle t url =>
      let g' := expireGuard t g
      (⟨g'.fetching.filter (fun p => p.1 ≠ urlKey url)⟩, none)

/-- Run the guard over a time-ordered event list, collecting the outcome of
every arrival. -/
def runGuard (g : TGuard) : List GEvent → TGuard × List GOut
  | [] => (g, [])
  | e :: rest =>
      let r := guardStep g e
      let rr := runGuard r.1 rest
      (rr.1, (match r.2 with | some o => [o] | none => []) ++ rr.2)

/-! ## Background-sync gating (magStalkerService.js lines 60–70)

`_initBackgroundSync` guards the recurring sync loop behind the process-global
`global.magStalkerSyncRunning` flag (`undefined` until first touched). -/

/-- Process-wide state: the global flag and, in construction order, which
service instances started the background loop. -/
structure ProcState where
  magStalkerSyncRunning : Option Bool
  loopsStartedBy : List Nat
  deriving Repr, DecidableEq

/-- `_initBackgroundSync`, run by the constructor of instance `i`:
initialise the global flag to `false` when undefined, and start the loop
(setting the flag) only when the flag is `false`. -/
def initBackgroundSync (st : ProcState) (i : Nat) : ProcState :=
  let flag := match st.magStalkerSyncRunning with
              | none => some false
              | some b => some b
  if flag = some false then
    { magStalkerSyncRunning := some true, loopsStartedBy := st.loopsStartedBy ++ [i] }
  else
    { st with magStalkerSyncRunning := flag }

/-- Construct a sequence of `MagStalkerService` instances in a fresh process. -/
def constructInstances (ids : List Nat) : ProcState :=
  ids.foldl initBackgroundSync ⟨none, []⟩

/-! ## MAG/Stalker portal client (src/services/magStalkerService.js)

`JSON.parse` of the host runtime is an explicit parameter
`jp : String → Option JVal` (`none` models a parse exception); the portal
itself is an environment mapping a probed path to `none` (request threw) or
to a status code and response body. -/

/-- `\w` of the wrapper regex. -/
def isWordChar (c : Char) : Bool := c.isAlphanum || c = '_'

/-- Capture of `/^\w+\(({.*})\);?$/s`: a leading word, an opening parenthesis,
a greedy brace-delimited capture, and `)` or `);` at the end. -/
def wrapperInner (s : String) : Option String :=
  let l := s.data
  let w := l.takeWhile isWordChar
  if w.isEmpty then none
  else
    match l.drop w.length with
    | '(' :: rest =>
        let n := rest.length
        let candA := rest.take (n - 1)
        if rest.getLast? = some ')' ∧ candA.head? = some '{' ∧ candA.getLast? = some '}' then
          some (String.mk candA)
        else
          let candB := rest.take (n - 2)
          if rest.drop (n - 2) = [')', ';'] ∧ candB.head? = some '{' ∧ candB.getLast? = some '}' then
            some (String.mk candB)
          else none
    | _ => none

/-- Capture of `/({.*})/s`: from the first `{` to the last `}`, when the
latter lies strictly after the former. -/
def braceSpan (s : String) : Option String :=
  let l := s.data
  match l.findIdx? (· = '{'), l.reverse.findIdx? (· = '}') with
  | some i, some jr =>
      let j := l.length - 1 - jr
      if i < j then some (String.mk ((l.drop i).take (j - i + 1))) else none
  | _, _ => none

/-- A response body as axios delivers it: a parsed JSON value, or the raw
text when the body was not valid JSON. -/
inductive RData where
  | rstr (s : String)
  | rjson (v : JVal)

/-- `parseResponse` (magStalkerService.js lines 952–982): wrapper extraction,
then greedy brace extraction, then direct parse, then `{js: data}`. -/
def parseResponse (jp : String → Option JVal) : RData → JVal
  | .rjson v => v
  | .rstr s =>
      let direct := (jp s).getD (jobjL [("js", JVal.jstr s)])
      let step2 :=
        match braceSpan s with
        | some m => match jp m with
                    | some v => v
                    | none => direct
        | none => direct
      match wrapperInner s with
      | some w => match jp w with
                  | some v => v
                  | none => step2
      | none => step2

/-- The fixed candidate API path list (magStalkerService.js lines 31–53). -/
def apiPaths : List String :=
  ["/c/portal.php", "/portal.php", "/c/server/portal.php", "/stalker_portal/portal.php",
   "/c/stalker_portal/portal.php", "/server/portal.php", "/api/portal.php",
   "/c/api/portal.php", "/server/load.php", "/c/server/load.php",
   "/stalker_portal/server/load.php", "/portal/server/load.php", "/api/server/load.php",
   "/stb/server/load.php", "/load.php", "/stalker_portal/api/load.php", "/api/load.php",
   "/portal/load.php", "/xmltv/server/load.php", "/itv/server/load.php", ""]

/-- The initial `this.currentApiPath` (line 54). -/
def initialApiPath : String := "/c/portal.php"

/-- Acceptance test of one probed path (lines 243–257): the handshake request
must resolve with status 200 and a decoded body `data` with
`data && (data.js || data.token)`. -/
def apiPathAccept (jp : String → Option JVal) (env : String → Option (Nat × RData))
    (path : String) : Bool :=
  match env path with
  | some (status, body) =>
      if status = 200 then
        let data := parseResponse jp body
        data.truthy && ((data.getF "js").truthy || (data.getF "token").truthy)
      else false
  | none => false

/-- The probe loop of `findApiPath`: returns (returned path, new
`currentApiPath`, list of probed paths in order). -/
def findApiPathAux (jp : String → Option JVal) (env : String → Option (Nat × RData)) :
    List String → String → String × String × List String
  | [], cur => (cur, cur, [])
  | p :: rest, cur =>
      if apiPathAccept jp env p then (p, p, [p])
      else
        let r := findApiPathAux jp env rest cur
        (r.1, r.2.1, p :: r.2.2)

/-- `findApiPath` (magStalkerService.js lines 230–265): probe the candidates
in order with a handshake request; on first acceptance cache and return that
path; on exhaustion return the current path unchanged (no error). -/
def findApiPath (jp : String → Option JVal) (env : String → Option (Nat × RData))
    (cur : String) : String × String × List String :=
  findApiPathAux jp env apiPaths cur

/-- Modelled from the spec (`discoverPath`, spec §4.1 and §8): "probes a fixed
ordered list of candidate paths with a handshake request; returns the first
path whose decoded body contains a token field; on exhaustion, returns a
default path".  A body "contains a token field" when the decoded value has a
`js.token` or `token` member. -/
def specTokenAccept (jp : String → Option JVal) (env : String → Option (Nat × RData))
    (path : String) : Bool :=
  match env path with
  | some (_, body) =>
      let data := parseResponse jp body
      !((data.getF "js").getF "token").isUndef || !(data.getF "token").isUndef
  | none => false

def findApiPathSpec (jp : String → Option JVal) (env : String → Option (Nat × RData))
    (cur : String) : String :=
  (apiPaths.find? (specTokenAccept jp env)).getD cur

/-! ## Channel normalization -/

/-- First match of `/https?:\/\/[^\s]+/`. -/
def firstUrlMatchAux : List Char → Option String
  | [] => none
  | c :: rest =>
      match c :: rest with
      | 'h' :: 't' :: 't' :: 'p' :: 's' :: ':' :: '/' :: '/' :: tail =>
          let run := tail.takeWhile (fun ch => ¬ ch.isWhitespace)
          if run.isEmpty then firstUrlMatchAux rest else some ("https://" ++ String.mk run)
      | 'h' :: 't' :: 't' :: 'p' :: ':' :: '/' :: '/' :: tail =>
          let run := tail.takeWhile (fun ch => ¬ ch.isWhitespace)
          if run.isEmpty then firstUrlMatchAux rest else some ("http://" ++ String.mk run)
      | _ => firstUrlMatchAux rest

def firstUrlMatch (s : String) : Option String := firstUrlMatchAux s.data

/-- Canonical channel produced by `transformChannels` (magStalkerService.js
lines 885–948). -/
structure MagChannel where
  channelId : String
  name : String
  originalName : String
  cmd : JVal
  logo : JVal
  group : JVal
  tvGenreId : Option String
  isHd : Bool
  is4k : Bool
  useHttpTmpLink : Bool
  ageRestricted : Bool
  sourceType : String
  macAddress : String
  streamingToken : JVal
  streamUrl : JVal

/-- `this.genresMap?.get(genreId)` lifted back into a JS value
(`undefined` on a miss or a `null` key). -/
def genreLookup (gm : List (String × String)) : Option String → JVal
  | some gid =>
      match gm.find? (fun p => p.1 = gid) with
      | some p => JVal.jstr p.2
      | none => JVal.jundef
  | none => JVal.jundef

/-- The element mapping of `transformChannels` (lines 890–946), for one raw
record.  `rand` is the draw `String(Math.random()).substring(2, 10)` this
call observed.  The result is `Except` because `cmd.match(...)` throws a
`TypeError` when the record's `cmd`/`url` field is a truthy non-string. -/
def transformChannel (rand : String) (genresMap : List (String × String))
    (macAddress : String) (ch : JVal) : Except Unit MagChannel :=
  let channelIdV :=
    JVal.jsOr (JVal.jsOr (JVal.jsOr (ch.getF "id") (ch.getF "channel_id"))
      (ch.getF "channelId")) (JVal.jstr rand)
  let nameV :=
    JVal.jsOr (JVal.jsOr (JVal.jsOr (ch.getF "name") (ch.getF "title"))
      (ch.getF "display_name")) (JVal.jstr "Unknown")
  let cmd := JVal.jsOr (JVal.jsOr (ch.getF "cmd") (ch.getF "url")) (JVal.jstr "")
  let streamingToken :=
    JVal.jsOr (JVal.jsOr (ch.getF "password") (ch.getF "streaming_token")) JVal.jnull
  match cmd with
  | .jstr cmdS =>
      let streamUrl :=
        match firstUrlMatch cmdS with
        | some u => JVal.jstr u
        | none => JVal.jnull
      let logo :=
        JVal.jsOr (JVal.jsOr (JVal.jsOr (ch.getF "logo") (ch.getF "icon"))
          (ch.getF "logo_uri")) (JVal.jstr "")
      let genreId : Option String :=
        if (ch.getF "tv_genre_id").truthy then some (jsToString (ch.getF "tv_genre_id"))
        else if (ch.getF "genre_id").truthy then some (jsToString (ch.getF "genre_id"))
        else none
      let genreName :=
        JVal.jsOr (genreLookup genresMap genreId)
          (JVal.jsOr (JVal.jsOr (JVal.jsOr (ch.getF "genre") (ch.getF "group"))
            (ch.getF "category")) (JVal.jstr "Uncategorized"))
      .ok
        { channelId := jsToString channelIdV
          name := jsToString nameV
          originalName := jsToString nameV
          cmd := cmd
          logo := logo
          group := genreName
          tvGenreId := genreId
          isHd := JVal.jsEq (ch.getF "hd") (JVal.jnum 1) || JVal.jsEq (ch.getF "hd") (JVal.jstr "1")
          is4k := JVal.jsEq (ch.getF "hs") (JVal.jnum 4) || JVal.jsEq (ch.getF "hs") (JVal.jstr "4")
          useHttpTmpLink := JVal.jsEq (ch.getF "use_http_tmp_link") (JVal.jnum 1)
          ageRestricted := JVal.jsEq (ch.getF "censored") (JVal.jnum 1)
          sourceType := "mag"
          macAddress := macAddress
          streamingToken := streamingToken
          streamUrl := streamUrl }
  | _ => .error ()

/-- Canonical channel produced by `_transformMAGChannel`
(fastChannelSyncService.js lines 369–387). -/
structure FastMAGChannel where
  channelId : String
  name : JVal
  originalName : JVal
  cmd : JVal
  logo : JVal
  group : JVal
  tvGenreId : String
  isHd : Bool
  is4k : Bool
  useHttpTmpLink : Bool
  ageRestricted : Bool
  sourceType : String

/-- `_transformMAGChannel(ch, genreMap)`; `rand` is the draw
`Math.random().toString(36).slice(2)` this call observed. -/
def transformMAGChannel (rand : String) (ch : JVal) (genreMap : List (String × String)) :
    FastMAGChannel :=
  let id := jsToString
    (JVal.jsOr (JVal.jsOr (JVal.jsOr (ch.getF "id") (ch.getF "channel_id"))
      (ch.getF "channelId")) (JVal.jstr rand))
  let name :=
    JVal.jsOr (JVal.jsOr (JVal.jsOr (ch.getF "name") (ch.getF "title"))
      (ch.getF "display_name")) (JVal.jstr "Unknown")
  let genreId := jsToString
    (JVal.jsOr (JVal.jsOr (ch.getF "tv_genre_id") (ch.getF "genre_id")) (JVal.jstr ""))
  { channelId := id
    name := name
    originalName := name
    cmd := JVal.jsOr (JVal.jsOr (ch.getF "cmd") (ch.getF "url")) (JVal.jstr "")
    logo := JVal.jsOr (JVal.jsOr (ch.getF "logo") (ch.getF "icon")) (JVal.jstr "")
    group :=
      JVal.jsOr (match genreMap.find? (fun p => p.1 = genreId) with
                 | some p => JVal.jstr p.2
                 | none => JVal.jundef)
        (JVal.jsOr (ch.getF "genre") (JVal.jstr "Uncategorized"))
    tvGenreId := genreId
    isHd := JVal.jsEq (ch.getF "hd") (JVal.jnum 1) || JVal.jsEq (ch.getF "hd") (JVal.jstr "1")
    is4k := JVal.jsEq (ch.getF "is4k") (JVal.jnum 1)
    useHttpTmpLink := JVal.jsEq (ch.getF "use_http_tmp_link") (JVal.jnum 1)
    ageRestricted := JVal.jsEq (ch.getF "censored") (JVal.jnum 1)
    sourceType := "mag" }

/-! ## Token cache (magStalkerService.js lines 181–225) -/

/-- A `tokenCache` entry `{ token, url, timestamp }`. -/
structure TokEntry where
  token : JVal
  url : JVal
  timestamp : Int

/-- `this.tokenCacheTTL = 10 * 60 * 1000`. -/
def tokenCacheTTL : Int := 10 * 60 * 1000

/-- The channels-cache lookup inside `getChannelToken` (lines 198–205):
exact id match first, then a whitespace-trimmed match. -/
def lookupChannel (cache : List MagChannel) (searchId : String) : Option MagChannel :=
  match cache.find? (fun c => c.channelId = searchId) with
  | some c => some c
  | none => cache.find? (fun c => jsTrim c.channelId = jsTrim searchId)

/-- The channels-cache fallback block of `getChannelToken` (lines 197–224):
runs when the token cache had no fresh entry. -/
def tokenFromChannelsCache (tokenCache : List (String × TokEntry))
    (channelsCache : Option (List MagChannel)) (now : Int) (searchId : String) :
    Option TokEntry × List (String × TokEntry) :=
  match channelsCache with
  | some cache =>
      match lookupChannel cache searchId with
      | some c =>
          if c.streamingToken.truthy || c.streamUrl.truthy then
            let tokenData : TokEntry := ⟨c.streamingToken, c.streamUrl, now⟩
            (some tokenData, mapSet tokenCache searchId tokenData)
          else (none, tokenCache)
      | none => (none, tokenCache)
  | none => (none, tokenCache)

/-- `getChannelToken(channelId)` (lines 181–225): serve a token-cache entry
younger than the TTL; otherwise consult the channels cache, stamping and
caching a fresh entry when the channel carries a token or URL; otherwise
report a miss (`null`).  Returns the result and the updated token cache. -/
def getChannelToken (tokenCache : List (String × TokEntry))
    (channelsCache : Option (List MagChannel)) (now : Int) (channelId : String) :
    Option TokEntry × List (String × TokEntry) :=
  let searchId := channelId
  match mapGet tokenCache searchId with
  | some cached =>
      if now - cached.timestamp < tokenCacheTTL then (some cached, tokenCache)
      else tokenFromChannelsCache tokenCache channelsCache now searchId
  | none => tokenFromChannelsCache tokenCache channelsCache now searchId

/-! ## M3U streaming parser (fastChannelSyncService.js lines 87–180)

The chunked line loop consumes every completed line (up to the last newline)
and treats the final unterminated fragment separately on `end`; the parsed
result depends only on the full text, so the model takes the whole text. -/

/-- JS `lastIndexOf`. -/
def lastIndexOf (l : List Char) (c : Char) : Option Nat :=
  match l.reverse.findIdx? (· = c) with
  | some jr => some (l.length - 1 - jr)
  | none => none

/-- First capture of `` new RegExp(`${key}="([^"]*)"`) ``: scan for the key
followed by `="`, capture up to the next quote (which must exist). -/
def attrCaptureAux (key : List Char) : List Char → Option (List Char)
  | [] => none
  | c :: rest =>
      if (c :: rest).take (key.length + 2) == key ++ ['=', '"'] then
        let after := (c :: rest).drop (key.length + 2)
        let v := after.takeWhile (· ≠ '"')
        if v.length < after.length then some v
        else attrCaptureAux key rest
      else attrCaptureAux key rest

/-- The `get(key)` helper of `_parseExtInf`: the capture, or `''`. -/
def extGet (attrs key : String) : String :=
  match attrCaptureAux key.data attrs.data with
  | some v => String.mk v
  | none => ""

/-- One parsed M3U channel record (the `_parseExtInf` object, with the `url`
that the following line assigns; `url = ""` while still pending). -/
structure M3UChannel where
  channelId : String
  name : String
  originalName : String
  logo : String
  group : String
  tvgId : String
  tvgName : String
  tvgShift : String
  sourceType : String
  url : String
  deriving Repr, DecidableEq

/-- `_parseExtInf(line)` (lines 157–180).  With no comma, `name` falls back
to `'Unknown'` and `slice(0, -1)` drops the last character of the attrs. -/
def parseExtInf (line : String) : M3UChannel :=
  let l := line.data
  let commaIdx := lastIndexOf l ','
  let name :=
    match commaIdx with
    | some i => jsTrim (String.mk (l.drop (i + 1)))
    | none => "Unknown"
  let attrs :=
    match commaIdx with
    | some i => String.mk (l.take i)
    | none => String.mk (l.take (l.length - 1))
  let tvgId := extGet attrs "tvg-id"
  { channelId := if tvgId ≠ "" then tvgId else name
    name := name
    originalName := name
    logo := extGet attrs "tvg-logo"
    group := if extGet attrs "group-title" ≠ "" then extGet attrs "group-title" else "Uncategorized"
    tvgId := tvgId
    tvgName := extGet attrs "tvg-name"
    tvgShift := extGet attrs "tvg-shift"
    sourceType := "m3u"
    url := "" }

/-- One iteration of the line loop (lines 115–135): an `#EXTINF:` line opens
a pending record; the next nonempty non-comment line closes it, assigning the
URL and, if the record's id is empty, the placeholder `m3u_<count>`. -/
def m3uStep (acc : List M3UChannel × Option M3UChannel) (raw : String) :
    List M3UChannel × Option M3UChannel :=
  let line := jsTrim raw
  let channels := acc.1
  if strStartsWith line "#EXTINF:" then (channels, some (parseExtInf line))
  else
    match acc.2 with
    | some m =>
        if line ≠ "" ∧ ¬ strStartsWith line "#" then
          let cid := if m.channelId ≠ "" then m.channelId
                     else "m3u_" ++ natToString channels.length
          (channels ++ [{ m with channelId := cid, url := line }], none)
        else (channels, some m)
    | none => (channels, none)

/-- The whole `_syncM3U` record assembly over the playlist text (lines
109–147), including the final-fragment handling on `end`. -/
def syncM3UText (text : String) : List M3UChannel :=
  let parts := splitOnChar '\n' text
  let lines := parts.dropLast
  let remainder := (parts.getLast?).getD ""
  let r := lines.foldl m3uStep ([], none)
  match r.2 with
  | some m =>
      if jsTrim remainder ≠ "" then
        let cid := if m.channelId ≠ "" then m.channelId
                   else "m3u_" ++ natToString r.1.length
        r.1 ++ [{ m with channelId := cid, url := jsTrim remainder }]
      else r.1
  | none => r.1

/-- The id discipline of an M3U parse pass: every assembled record has a
non-empty id, and a record whose raw metadata had neither a `tvg-id` nor a
display name carries the position-based placeholder `m3u_<index>`. -/
def M3UIdInv (cs : List M3UChannel) : Prop :=
  ∀ i (hi : i < cs.length),
    (cs.get ⟨i, hi⟩).channelId ≠ "" ∧
    ((cs.get ⟨i, hi⟩).tvgId = "" → (cs.get ⟨i, hi⟩).name = "" →
      (cs.get ⟨i, hi⟩).channelId = "m3u_" ++ natToString i)

/-! ## Bulk persistence (fastChannelSyncService.js `_bulkSave`, lines
393–453, and channelSyncService.js `updateChannelsBulk`, lines 119–191)

The store contract (§6) is find-by-filter / unordered bulk upsert /
delete-by-filter; a stored channel document is its `(playlistId, channelId)`
filter key plus the `$set` payload.  The canonical channel fields spread by
`...ch` are an opaque payload `α` paired with the channel's id; the volatile
`updatedAt` stamp is omitted. -/

/-- One entry of the playlist's `channelSettings` array. -/
structure CSet where
  channelId : String
  isVisible : Bool
  customName : Option String
  customLogo : Option String
  customOrder : Option Int
  deriving Repr, DecidableEq

/-- The playlist fields the save paths read. -/
structure PL where
  id : String
  channelSettings : List CSet
  deriving Repr, DecidableEq

/-- A persisted channel document: the upsert filter key plus the `$set`
fields. -/
structure SDoc (α : Type) where
  playlistId : String
  channelId : String
  payload : α
  isVisible : Bool
  customName : Option String
  customLogo : Option String
  customOrder : Option Int
  deriving Repr, DecidableEq

abbrev Store (α : Type) := List (SDoc α)

/-- The upsert filter key of a stored document. -/
def dKey {α : Type} (d : SDoc α) : String × String := (d.playlistId, d.channelId)

/-- The document an upsert writes for channel `ch` of playlist `pl`
(the `$set` block both services build, lines 413–431 / 161–182). -/
def mkDoc {α : Type} (pl : PL) (ch : String × α) : SDoc α :=
  let settings := pl.channelSettings.find? (fun s => s.channelId = ch.1)
  { playlistId := pl.id
    channelId := ch.1
    payload := ch.2
    isVisible := match settings with | some s => s.isVisible | none => true
    customName := match settings with | some s => s.customName | none => none
    customLogo := match settings with | some s => s.customLogo | none => none
    customOrder := match settings with | some s => s.customOrder | none => none }

/-- Mongo `updateOne` with `upsert: true`: replace the first document
matching the filter, or insert at the end. -/
def upsertOne {α : Type} (pid cid : String) (doc : SDoc α) : Store α → Store α
  | [] => [doc]
  | d :: rest =>
      if d.playlistId = pid ∧ d.channelId = cid then doc :: rest
      else d :: upsertOne pid cid doc rest

/-- Apply the upsert ops of one batch (or of the whole list). -/
def upsertChannels {α : Type} (pl : PL) (chs : List (String × α)) (store : Store α) :
    Store α :=
  chs.foldl (fun st ch => upsertOne pl.id ch.1 (mkDoc pl ch) st) store

/-- `channels.slice(i, i + BATCH_SIZE)` chunking, fuel-bounded (any fuel at
least the list length is exact: each step consumes at least one element). -/
def chunksOfAux {α : Type} (n : Nat) : Nat → List α → List (List α)
  | 0, _ => []
  | fuel + 1, l =>
      if l.isEmpty then []
      else l.take (max n 1) :: chunksOfAux n fuel (l.drop (max n 1))

def chunksOf {α : Type} (n : Nat) (l : List α) : List (List α) :=
  chunksOfAux n l.length l

/-- A database operation, in issue order. -/
inductive DbOp where
  | upsertBatch (size : Nat)
  | deleteNotIn (ids : List String)
  | deleteIds (ids : List String)
  deriving Repr, DecidableEq

def DB_BATCH_SIZE : Nat := 2000
def LEGACY_BATCH_SIZE : Nat := 1000

/-- `_bulkSave` (fast path): early return on an empty list; otherwise upsert
in 2000-record batches and only then `deleteMany` the playlist's channels
not among the new ids.  The batches run under `Promise.all`, but each op
touches only its own channel's key, so in-order application is observably
equivalent for the final store. -/
def bulkSave {α : Type} (channels : List (String × α)) (pl : PL) (store : Store α) :
    Store α × List DbOp :=
  if channels.isEmpty then (store, [])
  else
    let batches := chunksOf DB_BATCH_SIZE channels
    let store1 := batches.foldl (fun st b => upsertChannels pl b st) store
    let newIds := channels.map Prod.fst
    let store2 := store1.filter (fun d => ¬(d.playlistId = pl.id ∧ d.channelId ∉ newIds))
    (store2, batches.map (fun b => DbOp.upsertBatch b.length) ++ [DbOp.deleteNotIn newIds])

/-- `updateChannelsBulk` (legacy path): read the playlist's existing
channels, delete the ones absent from the new set first, then upsert in
1000-record batches. -/
def updateChannelsBulk {α : Type} (channels : List (String × α)) (pl : PL)
    (store : Store α) : Store α × List DbOp :=
  let existingChannels := store.filter (fun d => d.playlistId = pl.id)
  let newChannelIds := channels.map Prod.fst
  let channelsToDelete :=
    (existingChannels.filter (fun d => d.channelId ∉ newChannelIds)).map (·.channelId)
  let store1 :=
    if channelsToDelete.isEmpty then store
    else store.filter (fun d => ¬(d.playlistId = pl.id ∧ d.channelId ∈ channelsToDelete))
  let batches := chunksOf LEGACY_BATCH_SIZE channels
  let store2 := batches.foldl (fun st b => upsertChannels pl b st) store1
  (store2,
   (if channelsToDelete.isEmpty then [] else [DbOp.deleteIds channelsToDelete]) ++
   batches.map (fun b => DbOp.upsertBatch b.length))

/-! ## Concrete fixtures used by the counterexample theorems -/

/-- A host `JSON.parse` that always fails (never consulted by the fixtures:
their portal answers with already-parsed JSON bodies). -/
def c4JP : String → Option JVal := fun _ => none

/-- A portal whose very first candidate path answers HTTP 200 with
`{js: {status: 0}}` — a truthy `js` member but no token field anywhere —
and where every other candidate errors out. -/
def c4Env : String → Option (Nat × RData) := fun p =>
  if p = "/c/portal.php" then
    some (200, .rjson (jobjL [("js", jobjL [("status", .jnum 0)])]))
  else none

/-- An upstream that answers 404 on the primary xtream URL (after the `.ts`
append) and 200 on every other URL — in particular on the `/live/...`
alternate. -/
def c3Env : String → UpOutcome := fun u =>
  if u = "http://host/user/pass/99.ts" then .respond 404 else .respond 200

/-- An xtream-typed stream request for channel 99. -/
def c3Query : Query := ⟨some "http://host/user/pass/99", none, some "xtream", some "99"⟩

/-! ## Helper lemmas -/

lemma natDigitsAux_eq (fuel : Nat) : ∀ n : Nat, n ≤ fuel → natDigitsAux fuel n = Nat.digits 10 n := by
  induction fuel with
  | zero =>
      intro n h
      have : n = 0 := Nat.le_zero.mp h
      simp [natDigitsAux, this]
  | succ fuel ih =>
      intro n h
      by_cases hn : n = 0
      · simp [natDigitsAux, hn]
      · rw [natDigitsAux, if_neg hn,
          Nat.digits_def' (by norm_num : (1 : ℕ) < 10) (Nat.pos_of_ne_zero hn)]
        congr 1
        apply ih
        have : n / 10 < n := Nat.div_lt_self (Nat.pos_of_ne_zero hn) (by norm_num)
        omega

lemma natDigits_eq_digits (n : Nat) : natDigits n = Nat.digits 10 n :=
  natDigitsAux_eq n n le_rfl

/-- The decimal digit characters are pairwise distinct. -/
lemma digitCharInj : ∀ a < 10, ∀ b < 10,
    Char.ofNat (48 + a) = Char.ofNat (48 + b) → a = b := by decide

lemma mapDigitCharInj : ∀ (l₁ l₂ : List Nat), (∀ d ∈ l₁, d < 10) → (∀ d ∈ l₂, d < 10) →
    l₁.map (fun d => Char.ofNat (48 + d)) = l₂.map (fun d => Char.ofNat (48 + d)) → l₁ = l₂ := by
  intro l₁
  induction l₁ with
  | nil => intro l₂ _ _ h; cases l₂ <;> simp_all
  | cons a t ih =>
    intro l₂ h₁ h₂ h
    cases l₂ with
    | nil => simp_all
    | cons b t₂ =>
      simp only [List.map_cons, List.cons.injEq] at h
      have ha : a < 10 := h₁ a (by simp)
      have hb : b < 10 := h₂ b (by simp)
      have hab := digitCharInj a ha b hb h.1
      have ht := ih t₂ (fun d hd => h₁ d (by simp [hd])) (fun d hd => h₂ d (by simp [hd])) h.2
      simp [hab, ht]

/-- Decimal rendering of naturals is injective (two distinct indices always
yield distinct placeholder strings). -/
theorem natToString_injective : Function.Injective natToString := by
  intro m n h
  unfold natToString at h
  simp only [natDigits_eq_digits] at h
  by_cases hm : m = 0 <;> by_cases hn : n = 0
  · simp [hm, hn]
  · exfalso
    simp only [hm, if_pos rfl, if_neg hn] at h
    have hdata : (("0" : String)).data =
        ((Nat.digits 10 n).reverse.map (fun d => Char.ofNat (48 + d))) := by
      have := congrArg String.data h
      simpa using this
    have h0 : (("0" : String)).data = ['0'] := rfl
    rw [h0] at hdata
    have hlen : (Nat.digits 10 n).reverse.length = 1 := by
      have := congrArg List.length hdata
      simpa using this.symm
    obtain ⟨d, hd⟩ : ∃ d, (Nat.digits 10 n).reverse = [d] := by
      cases hrev : (Nat.digits 10 n).reverse with
      | nil => rw [hrev] at hlen; simp at hlen
      | cons x xs =>
        rw [hrev] at hlen
        simp at hlen
        exact ⟨x, by simp [hlen]⟩
    have hdig : Nat.digits 10 n = [d] := by
      have := congrArg List.reverse hd
      simpa using this
    rw [hd] at hdata
    simp only [List.map_cons, List.map_nil] at hdata
    have hd10 : d < 10 := Nat.digits_lt_base (by norm_num) (by rw [hdig]; simp)
    have hd0 : d = 0 := by
      have : Char.ofNat (48 + 0) = Char.ofNat (48 + d) := by
        simpa using hdata
      exact (digitCharInj 0 (by norm_num) d hd10 this).symm
    have hzero : n = 0 := by
      have hofd := Nat.ofDigits_digits 10 n
      rw [hdig, hd0] at hofd
      simpa using hofd.symm
    exact hn hzero
  · exfalso
    simp only [hn, if_pos rfl, if_neg hm] at h
    have hdata : ((Nat.digits 10 m).reverse.map (fun d => Char.ofNat (48 + d))) =
        (("0" : String)).data := by
      have := congrArg String.data h
      simpa using this
    have h0 : (("0" : String)).data = ['0'] := rfl
    rw [h0] at hdata
    have hlen : (Nat.digits 10 m).reverse.length = 1 := by
      have := congrArg List.length hdata
      simpa using this
    obtain ⟨d, hd⟩ : ∃ d, (Nat.digits 10 m).reverse = [d] := by
      cases hrev : (Nat.digits 10 m).reverse with
      | nil => rw [hrev] at hlen; simp at hlen
      | cons x xs =>
        rw [hrev] at hlen
        simp at hlen
        exact ⟨x, by simp [hlen]⟩
    have hdig : Nat.digits 10 m = [d] := by
      have := congrArg List.reverse hd
      simpa using this
    rw [hd] at hdata
    simp only [List.map_cons, List.map_nil] at hdata
    have hd10 : d < 10 := Nat.digits_lt_base (by norm_num) (by rw [hdig]; simp)
    have hd0 : d = 0 := by
      have : Char.ofNat (48 + d) = Char.ofNat (48 + 0) := by
        simpa using hdata
      exact digitCharInj d hd10 0 (by norm_num) this
    have hzero : m = 0 := by
      have hofd := Nat.ofDigits_digits 10 m
      rw [hdig, hd0] at hofd
      simpa using hofd.symm
    exact hm hzero
  · simp only [if_neg hm, if_neg hn] at h
    have hdata := congrArg String.data h
    simp only [String.data] at hdata
    have hrev := mapDigitCharInj _ _
      (fun d hd => Nat.digits_lt_base (by norm_num) (List.mem_reverse.mp hd))
      (fun d hd => Nat.digits_lt_base (by norm_num) (List.mem_reverse.mp hd)) hdata
    have hdig : Nat.digits 10 m = Nat.digits 10 n := by
      have := congrArg List.reverse hrev
      simpa using this
    calc m = Nat.ofDigits 10 (Nat.digits 10 m) := (Nat.ofDigits_digits 10 m).symm
    _ = Nat.ofDigits 10 (Nat.digits 10 n) := by rw [hdig]
    _ = n := Nat.ofDigits_digits 10 n

lemma JVal.jsOr_of_truthy {a : JVal} (b : JVal) (h : a.truthy = true) :
    a.jsOr b = a := by simp [JVal.jsOr, h]

lemma JVal.jsOr_of_falsy {a : JVal} (b : JVal) (h : a.truthy = false) :
    a.jsOr b = b := by simp [JVal.jsOr, h]

lemma find?_bool_and {α : Type} (l : List α) (p q : α → Bool)
    (h : ∀ a, q a = true → p a = true) :
    l.find? (fun a => p a && q a) = l.find? q := by
  induction l with
  | nil => rfl
  | cons d rest ih =>
      by_cases hq : q d = true
      · have hp := h d hq
        rw [List.find?_cons_of_pos _ (by simp [hp, hq]), List.find?_cons_of_pos _ hq]
      · have hq' : q d = false := by revert hq; cases q d <;> simp
        rw [List.find?_cons_of_neg _ (by simp [hq']), List.find?_cons_of_neg _ (by simp [hq']), ih]

lemma loopsAbsorb (l : List Nat) (st : ProcState)
    (h : st.magStalkerSyncRunning = some true) :
    (l.foldl initBackgroundSync st).loopsStartedBy = st.loopsStartedBy ∧
    (l.foldl initBackgroundSync st).magStalkerSyncRunning = some true := by
  induction l generalizing st with
  | nil => exact ⟨rfl, h⟩
  | cons y t ih =>
      have hstep : initBackgroundSync st y =
          { st with magStalkerSyncRunning := some true } := by
        simp [initBackgroundSync, h]
      have := ih { st with magStalkerSyncRunning := some true } rfl
      simpa [List.foldl_cons, hstep] using this

/-- C10: at most one background token-refresh loop per process: the
constructor's `_initBackgroundSync` starts the recurring sync loop only when
the process-global `magStalkerSyncRunning` flag is unset, so exactly the
first constructed instance (and no later one) starts the loop. -/
theorem backgroundSync_started_once (ids : List Nat) :
    (constructInstances ids).loopsStartedBy = ids.take 1 := by
  cases ids with
  | nil => rfl
  | cons x rest =>
      have hfirst : initBackgroundSync ⟨none, []⟩ x =
          ⟨some true, [x]⟩ := by simp [initBackgroundSync]
      have habs := loopsAbsorb rest ⟨some true, [x]⟩ rfl
      simp only [constructInstances, List.foldl_cons, hfirst]
      simpa using habs.1

/-- C9: killing a `(mac, channelId)` pair with no Active Connection is a
no-op — the map is unchanged, no destroy/end action is emitted, and the
DELETE endpoint answers `{success: false, message: 'Stream not found'}` —
while killing an existing connection destroys the upstream stream, ends the
still-writable downstream response, removes the entry (leaving no entry for
the key and touching no other key), and answers `{success: true}`. -/
theorem killStream_kill_or_noop (conns : ConnMap) (mac channelId : String) :
    (conns.find? (fun p => p.1 = connKey mac channelId) = none →
      deleteStreamEndpoint conns mac channelId =
        (conns, ⟨false, "Stream not found"⟩, [])) ∧
    (mapGet (deleteStreamEndpoint conns mac channelId).1 (connKey mac channelId) = none) ∧
    (∀ k, k ≠ connKey mac channelId →
      mapGet (deleteStreamEndpoint conns mac channelId).1 k = mapGet conns k) ∧
    ((deleteStreamEndpoint conns mac channelId).2.1.success =
      (conns.find? (fun p => p.1 = connKey mac channelId)).isSome) ∧
    (∀ kc, conns.find? (fun p => p.1 = connKey mac channelId) = some kc →
      (deleteStreamEndpoint conns mac channelId).2.1 = ⟨true, "Stream terminated"⟩ ∧
      PAct.deleteConn (connKey mac channelId) ∈ (deleteStreamEndpoint conns mac channelId).2.2 ∧
      (kc.2.streamDestroyable = true →
        PAct.destroyUpstream (connKey mac channelId) ∈ (deleteStreamEndpoint conns mac channelId).2.2) ∧
      (kc.2.resWritableEnded = false →
        PAct.endDownstream (connKey mac channelId) ∈ (deleteStreamEndpoint conns mac channelId).2.2)) := by
  have hframe : ∀ k, k ≠ connKey mac channelId →
      conns.find? (fun a => (!decide (a.1 = connKey mac channelId)) && decide (a.1 = k)) =
      conns.find? (fun a => decide (a.1 = k)) := by
    intro k hk
    apply find?_bool_and
    intro a ha
    simp at ha ⊢
    rw [ha]
    exact hk
  have hgone : (conns.filter (fun p => p.1 ≠ connKey mac channelId)).find?
      (fun p => p.1 = connKey mac channelId) = none := by
    rw [List.find?_eq_none]
    intro p hp
    have := List.of_mem_filter hp
    simp at this ⊢
    exact this
  rcases hfind : conns.find? (fun p => p.1 = connKey mac channelId) with _ | ⟨k0, c0⟩
  · refine ⟨fun _ => ?_, ?_, fun k hk => ?_, ?_, fun kc hkc => ?_⟩
    · simp [deleteStreamEndpoint, killStream, hfind]
    · simp [deleteStreamEndpoint, killStream, hfind, mapGet]
    · simp [deleteStreamEndpoint, killStream, hfind]
    · simp [deleteStreamEndpoint, killStream, hfind]
    · rw [hfind] at hkc; simp at hkc
  · refine ⟨fun hnone => ?_, ?_, fun k hk => ?_, ?_, fun kc hkc => ?_⟩
    · rw [hfind] at hnone; simp at hnone
    · simp [deleteStreamEndpoint, killStream, hfind, mapGet, hgone]
    · simp [deleteStreamEndpoint, killStream, hfind, mapGet, hframe k hk]
      try rfl
    · simp [deleteStreamEndpoint, killStream, hfind]
    · rw [hfind] at hkc
      injection hkc with hkc2
      subst hkc2
      refine ⟨?_, ?_, fun hdest => ?_, fun hend => ?_⟩
      · simp [deleteStreamEndpoint, killStream, hfind]
      · simp [deleteStreamEndpoint, killStream, hfind]
      · simp at hdest
        simp [deleteStreamEndpoint, killStream, hfind, hdest]
      · simp at hend
        simp [deleteStreamEndpoint, killStream, hfind, hend]

lemma killStream_no_openFetch (conns : ConnMap) (mac cid : String) :
    ∀ u, PAct.openFetch u ∉ (killStream conns mac cid).2.2 := by
  intro u
  cases hf : conns.find? (fun p => p.1 = connKey mac cid) with
  | none => simp [killStream, hf]
  | some kc =>
      obtain ⟨k0, c0⟩ := kc
      simp [killStream, hf]

lemma killStream_acts_spec (conns : ConnMap) (mac cid : String) (kc : String × Conn)
    (hf : conns.find? (fun p => p.1 = connKey mac cid) = some kc) :
    PAct.deleteConn (connKey mac cid) ∈ (killStream conns mac cid).2.2 ∧
    (kc.2.streamDestroyable = true →
      PAct.destroyUpstream (connKey mac cid) ∈ (killStream conns mac cid).2.2) ∧
    (kc.2.resWritableEnded = false →
      PAct.endDownstream (connKey mac cid) ∈ (killStream conns mac cid).2.2) := by
  obtain ⟨k0, c0⟩ := kc
  refine ⟨?_, fun hd => ?_, fun he => ?_⟩
  · simp [killStream, hf]
  · simp at hd
    simp [killStream, hf, hd]
  · simp at he
    simp [killStream, hf, he]

lemma killStream_keysNodup (conns : ConnMap) (mac cid : String)
    (h : (conns.map Prod.fst).Nodup) :
    (((killStream conns mac cid).2.1).map Prod.fst).Nodup := by
  cases hf : conns.find? (fun p => p.1 = connKey mac cid) with
  | none => simpa [killStream, hf] using h
  | some kc =>
      obtain ⟨k0, c0⟩ := kc
      simp only [killStream, hf]
      have hsub : ((conns.filter (fun p => p.1 ≠ connKey mac cid)).map Prod.fst).Sublist
          (conns.map Prod.fst) := (List.filter_sublist conns).map Prod.fst
      exact List.Nodup.sublist hsub h

lemma mapSet_keysNodup {β : Type} (m : List (String × β)) (k : String) (v : β)
    (h : (m.map Prod.fst).Nodup) : ((mapSet m k v).map Prod.fst).Nodup := by
  unfold mapSet
  by_cases hany : m.any (fun p => p.1 = k)
  · rw [if_pos hany]
    have hkeys : (m.map (fun p => if p.1 = k then (k, v) else p)).map Prod.fst
        = m.map Prod.fst := by
      rw [List.map_map]
      apply List.map_congr_left
      intro p _
      by_cases hpk : p.1 = k
      · simp [hpk]
      · simp [hpk]
    rw [hkeys]
    exact h
  · rw [if_neg hany, List.map_append]
    refine List.Nodup.append h (List.nodup_singleton k) ?_
    intro a ha hb
    simp at hb
    subst hb
    rcases List.mem_map.mp ha with ⟨p, hpm, hpk⟩
    exact hany (List.any_eq_true.mpr ⟨p, hpm, by simp [hpk]⟩)

/-- C1: for every stream request carrying a truthy MAC and a resolvable
channel id, the handler's effect trace begins with the force-kill of the
stored Active Connection for `(mac, channelId)` — including the destroy of
its upstream stream and the end of its still-writable downstream response —
followed by the fixed 200 ms settle delay, and no upstream fetch occurs in
that prefix; moreover the connection map keeps at most one entry per key. -/
theorem stream_kill_before_open (st : GState) (q : Query)
    (upstream : String → UpOutcome) (now : Int)
    (hurl : qTruthy q.url = true)
    (hmac : qTruthy q.mac = true)
    (hcid : reqChannelId q ≠ "unknown")
    (hnodup : (st.conns.map Prod.fst).Nodup) :
    (∃ tail, (handleStream st q upstream now).2.2 =
      (killStream st.conns (q.mac.getD "") (reqChannelId q)).2.2 ++ [PAct.delay 200] ++ tail) ∧
    (∀ u, PAct.openFetch u ∉
      ((killStream st.conns (q.mac.getD "") (reqChannelId q)).2.2 ++ [PAct.delay 200])) ∧
    (∀ kc, st.conns.find? (fun p => p.1 = connKey (q.mac.getD "") (reqChannelId q)) = some kc →
      PAct.deleteConn (connKey (q.mac.getD "") (reqChannelId q))
          ∈ (handleStream st q upstream now).2.2 ∧
      (kc.2.streamDestroyable = true →
        PAct.destroyUpstream (connKey (q.mac.getD "") (reqChannelId q))
          ∈ (handleStream st q upstream now).2.2) ∧
      (kc.2.resWritableEnded = false →
        PAct.endDownstream (connKey (q.mac.getD "") (reqChannelId q))
          ∈ (handleStream st q upstream now).2.2)) ∧
    (((handleStream st q upstream now).1.conns.map Prod.fst).Nodup) := by
  have hshape : ∃ tail, (handleStream st q upstream now).2.2 =
      (killStream st.conns (q.mac.getD "") (reqChannelId q)).2.2 ++ [PAct.delay 200] ++ tail ∧
      ((handleStream st q upstream now).1.conns =
          (killStream st.conns (q.mac.getD "") (reqChannelId q)).2.1 ∨
       ∃ ck c, (handleStream st q upstream now).1.conns =
          mapSet (killStream st.conns (q.mac.getD "") (reqChannelId q)).2.1 ck c) := by
    simp only [handleStream]
    rw [if_neg (by simp [hurl])]
    rw [if_pos (⟨hmac, hcid⟩ :
      qTruthy q.mac = true ∧ ¬ reqChannelId q = "unknown")]
    by_cases hdup : urlKey (q.url.getD "") ∈ st.fetching
    · rw [if_pos hdup]
      exact ⟨[], by simp, Or.inl rfl⟩
    · rw [if_neg hdup]
      split
      all_goals try split
      all_goals try split
      all_goals try split
      all_goals try split
      all_goals try split
      all_goals try split
      all_goals try split
      all_goals
        first
        | exact ⟨_, by simp; try rfl, Or.inr ⟨_, _, rfl⟩⟩
        | exact ⟨_, by simp; try rfl, Or.inl rfl⟩
  obtain ⟨tail, htr, hconns⟩ := hshape
  refine ⟨⟨tail, htr⟩, ?_, ?_, ?_⟩
  · intro u hmem
    rcases List.mem_append.mp hmem with h1 | h2
    · exact killStream_no_openFetch st.conns (q.mac.getD "") (reqChannelId q) u h1
    · simp at h2
  · intro kc hkc
    have hacts := killStream_acts_spec st.conns (q.mac.getD "") (reqChannelId q) kc hkc
    refine ⟨?_, fun hd => ?_, fun he => ?_⟩
    · rw [htr]
      exact List.mem_append.mpr (Or.inl (List.mem_append.mpr (Or.inl hacts.1)))
    · rw [htr]
      exact List.mem_append.mpr (Or.inl (List.mem_append.mpr (Or.inl (hacts.2.1 hd))))
    · rw [htr]
      exact List.mem_append.mpr (Or.inl (List.mem_append.mpr (Or.inl (hacts.2.2 he))))
  · rcases hconns with h | ⟨ck, c, h⟩ <;> rw [h]
    · exact killStream_keysNodup _ _ _ hnodup
    · exact mapSet_keysNodup _ _ _ (killStream_keysNodup _ _ _ hnodup)

/-- C1 witness: a concrete request for `(mac, channel) = (m, 7)` against a
state holding an Active Connection under `m_7`. -/
theorem stream_kill_witness :
    qTruthy (Query.mk (some "http://h/u/p/7") (some "m") (some "mag") (some "7")).url = true ∧
    qTruthy (Query.mk (some "http://h/u/p/7") (some "m") (some "mag") (some "7")).mac = true ∧
    reqChannelId (Query.mk (some "http://h/u/p/7") (some "m") (some "mag") (some "7")) ≠ "unknown" ∧
    (((GState.mk [("m_7", ⟨true, false, 0, "u", some "m", "7"⟩)] []).conns.map Prod.fst).Nodup) ∧
    (∃ tail,
      (handleStream (GState.mk [("m_7", ⟨true, false, 0, "u", some "m", "7"⟩)] [])
        (Query.mk (some "http://h/u/p/7") (some "m") (some "mag") (some "7"))
        (fun _ => UpOutcome.respond 200) 5).2.2 =
      (killStream [("m_7", ⟨true, false, 0, "u", some "m", "7"⟩)] "m"
        (reqChannelId (Query.mk (some "http://h/u/p/7") (some "m") (some "mag") (some "7")))).2.2
        ++ [PAct.delay 200] ++ tail) := by
  refine ⟨rfl, rfl, by decide, by decide, ?_⟩
  exact (stream_kill_before_open
    (GState.mk [("m_7", ⟨true, false, 0, "u", some "m", "7"⟩)] [])
    (Query.mk (some "http://h/u/p/7") (some "m") (some "mag") (some "7"))
    (fun _ => UpOutcome.respond 200) 5 rfl rfl (by decide) (by decide)).1

/-- C3 (code bug): because `attemptFetch` resolves every status below 500, a
404 from the upstream never throws, so the explicit 404-retry branch can
never run: on the failing input the gateway performs a single fetch of the
primary URL, never fetches the `/live/...` alternate (which here would have
answered 200), and pipes the upstream 404 body to the client under HTTP 200. -/
theorem xtream404_retry_never_fires :
    (handleStream ⟨[], []⟩ c3Query c3Env 0).2.1 = HttpResp.pipe 200 404 ∧
    altUrlOf "http://host/user/pass/99" = some "http://host/live/user/pass/99.ts" ∧
    c3Env "http://host/live/user/pass/99.ts" = UpOutcome.respond 200 ∧
    (handleStream ⟨[], []⟩ c3Query c3Env 0).2.2 =
      [PAct.openFetch "http://host/user/pass/99.ts", PAct.storeConn "undefined_99"] ∧
    PAct.openFetch "http://host/live/user/pass/99.ts" ∉
      (handleStream ⟨[], []⟩ c3Query c3Env 0).2.2 := by
  refine ⟨rfl, rfl, rfl, rfl, ?_⟩
  decide

lemma findApiPathAux_first (jp : String → Option JVal)
    (env : String → Option (Nat × RData)) :
    ∀ (l : List String) (c : String), findApiPathAux jp env l c =
      match l.find? (apiPathAccept jp env) with
      | some p => (p, p, l.takeWhile (fun q => !(apiPathAccept jp env q)) ++ [p])
      | none => (c, c, l) := by
  intro l
  induction l with
  | nil => intro c; rfl
  | cons p rest ih =>
      intro c
      by_cases hp : apiPathAccept jp env p = true
      · simp [findApiPathAux, hp, List.find?_cons_of_pos _ hp, List.takeWhile_cons, hp]
      · have hp' : apiPathAccept jp env p = false := by
          revert hp; cases apiPathAccept jp env p <;> simp
        rw [findApiPathAux, if_neg (by simp [hp']), List.find?_cons_of_neg _ (by simp [hp']), ih c]
        cases hr : rest.find? (apiPathAccept jp env) with
        | some q => simp [hr, List.takeWhile_cons, hp']
        | none => simp [hr]

/-- C4 amended: `findApiPath` probes the candidate paths in order with a
handshake request and returns the first path that answers HTTP 200 with a
decoded body whose `js` or `token` member is truthy (a token value is not
required), caching it as the current path; only when every candidate fails
does it return the previous current path unchanged, without raising. -/
theorem findApiPath_first_accepted (jp : String → Option JVal)
    (env : String → Option (Nat × RData)) (cur : String) :
    findApiPath jp env cur =
      match apiPaths.find? (apiPathAccept jp env) with
      | some p => (p, p, apiPaths.takeWhile (fun q => !(apiPathAccept jp env q)) ++ [p])
      | none => (cur, cur, apiPaths) :=
  findApiPathAux_first jp env apiPaths cur

/-- C4 counterexample: on the `c4Env` portal no candidate's body contains a
token field — the spec reading (`findApiPathSpec`) therefore exhausts the
list and falls back to the default — yet the code accepts the very first
path (probing no other) and caches it. -/
theorem findApiPath_counterexample :
    (findApiPath c4JP c4Env initialApiPath).2.2 = ["/c/portal.php"] ∧
    findApiPath c4JP c4Env initialApiPath = ("/c/portal.php", "/c/portal.php", ["/c/portal.php"]) ∧
    apiPaths.find? (specTokenAccept c4JP c4Env) = none ∧
    findApiPathSpec c4JP c4Env initialApiPath = initialApiPath := by
  refine ⟨rfl, rfl, by decide, by decide⟩

/-- C2 counterexample: the guard entry is removed as soon as the first
request's fetch settles (line 201), so a duplicate arriving 2 s after the
first — well within the 3-second window of the claim — is accepted and opens
a second upstream connection. -/
theorem urlGuard_counterexample :
    (runGuard ⟨[]⟩ [GEvent.arrive 0 "http://h/x?stream=9",
                    GEvent.settle 1000 "http://h/x?stream=9",
                    GEvent.arrive 2000 "http://h/x?stream=9"]).2
      = [GOut.accepted, GOut.accepted] ∧ (2000 : Int) < 0 + 3000 := by
  exact ⟨by decide, by norm_num⟩

/-- C2 amended: while the first request for a normalized URL key is still
connecting (its fetch has neither succeeded nor failed), a duplicate
arriving within 3 s is rejected with the 429 outcome and opens no second
upstream; and the guard self-expires at 3 s even if the first request never
settles, after which a duplicate is accepted again. -/
theorem urlGuard_reject_within_window (g : TGuard) (t1 t2 : Int) (u1 u2 : String)
    (hkey : urlKey u2 = urlKey u1)
    (hfresh : urlKey u1 ∉ g.fetching.map Prod.fst) :
    (t1 ≤ t2 → t2 < t1 + 3000 →
      (runGuard g [GEvent.arrive t1 u1, GEvent.arrive t2 u2]).2
        = [GOut.accepted, GOut.rejected429]) ∧
    (t1 + 3000 ≤ t2 →
      (runGuard g [GEvent.arrive t1 u1, GEvent.arrive t2 u2]).2
        = [GOut.accepted, GOut.accepted]) := by
  have hfresh1 : urlKey u1 ∉ ((expireGuard t1 g).fetching.map Prod.fst) := by
    intro hmem
    apply hfresh
    obtain ⟨p, hp, hpe⟩ := List.mem_map.mp hmem
    exact List.mem_map.mpr ⟨p, List.mem_of_mem_filter hp, hpe⟩
  have hstep1 : guardStep g (GEvent.arrive t1 u1) =
      (⟨(expireGuard t1 g).fetching ++ [(urlKey u1, t1 + 3000)]⟩, some GOut.accepted) := by
    simp [guardStep, hfresh1]
  constructor
  · intro _ hlt
    simp only [runGuard, hstep1]
    simp [guardStep, expireGuard, List.filter_append, hlt, hkey]
  · intro hge
    have hnotlt : ¬ t2 < t1 + 3000 := not_lt.mpr hge
    have hstale : urlKey u1 ∉
        ((g.fetching.filter (fun a => decide (t2 < a.2) && decide (t1 < a.2))).map Prod.fst) := by
      intro hmem
      apply hfresh
      obtain ⟨p, hp, hpe⟩ := List.mem_map.mp hmem
      exact List.mem_map.mpr ⟨p, List.mem_of_mem_filter hp, hpe⟩
    simp only [runGuard, hstep1]
    simp [guardStep, expireGuard, List.filter_append, hnotlt, hkey, hstale]

/-- C2 witness for the amended theorem. -/
theorem urlGuard_reject_witness :
    urlKey "http://h/x?stream=9" = urlKey "http://h/x?stream=9" ∧
    urlKey "http://h/x?stream=9" ∉ ((⟨[]⟩ : TGuard).fetching.map Prod.fst) ∧
    (0 : Int) ≤ 1000 ∧ (1000 : Int) < 0 + 3000 ∧
    (runGuard ⟨[]⟩ [GEvent.arrive 0 "http://h/x?stream=9",
                    GEvent.arrive 1000 "http://h/x?stream=9"]).2
      = [GOut.accepted, GOut.rejected429] := by
  refine ⟨rfl, by simp, by norm_num, by norm_num, ?_⟩
  exact (urlGuard_reject_within_window ⟨[]⟩ 0 1000 _ _ rfl (by simp)).1
    (by norm_num) (by norm_num)

/-- C8: `getChannelToken` returns an entry only when its age is below the
10-minute TTL (entries past the TTL are never served); and when the token
cache holds no fresh entry and the channels cache offers no channel with a
truthy token or URL for the id, it returns `null`, signalling the caller to
refresh. -/
theorem getChannelToken_ttl (tc : List (String × TokEntry))
    (cc : Option (List MagChannel)) (now : Int) (cid : String) :
    (∀ e, (getChannelToken tc cc now cid).1 = some e →
      now - e.timestamp < tokenCacheTTL) ∧
    ((∀ e, mapGet tc cid = some e → tokenCacheTTL ≤ now - e.timestamp) →
      (∀ cache, cc = some cache → ∀ c, lookupChannel cache cid = some c →
        c.streamingToken.truthy = false ∧ c.streamUrl.truthy = false) →
      (getChannelToken tc cc now cid).1 = none) := by
  have hFC : ∀ e, (tokenFromChannelsCache tc cc now cid).1 = some e →
      now - e.timestamp < tokenCacheTTL := by
    intro e he
    cases hcc : cc with
    | none =>
        rw [hcc] at he
        simp [tokenFromChannelsCache] at he
    | some cache =>
        rw [hcc] at he
        cases hlc : lookupChannel cache cid with
        | none => simp [tokenFromChannelsCache, hlc] at he
        | some c =>
            by_cases ht : (c.streamingToken.truthy || c.streamUrl.truthy) = true
            · simp [tokenFromChannelsCache, hlc, ht] at he
              rw [← he]
              simp [tokenCacheTTL]
            · have ht' : (c.streamingToken.truthy || c.streamUrl.truthy) = false := by
                revert ht; cases (c.streamingToken.truthy || c.streamUrl.truthy) <;> simp
              simp [tokenFromChannelsCache, hlc, ht'] at he
  have hFCnone : (∀ cache, cc = some cache → ∀ c, lookupChannel cache cid = some c →
      c.streamingToken.truthy = false ∧ c.streamUrl.truthy = false) →
      (tokenFromChannelsCache tc cc now cid).1 = none := by
    intro hmiss
    cases hcc : cc with
    | none => simp [tokenFromChannelsCache]
    | some cache =>
        cases hlc : lookupChannel cache cid with
        | none => simp [tokenFromChannelsCache, hlc]
        | some c =>
            have h2 := hmiss cache hcc c hlc
            simp [tokenFromChannelsCache, hlc, h2.1, h2.2]
  constructor
  · intro e he
    simp only [getChannelToken] at he
    cases hmg : mapGet tc cid with
    | some cached =>
        simp only [hmg] at he
        by_cases hage : now - cached.timestamp < tokenCacheTTL
        · rw [if_pos hage] at he
          simp at he
          rw [← he]
          exact hage
        · rw [if_neg hage] at he
          exact hFC e he
    | none =>
        simp only [hmg] at he
        exact hFC e he
  · intro hexp hmiss
    simp only [getChannelToken]
    cases hmg : mapGet tc cid with
    | some cached =>
        simp only [hmg]
        rw [if_neg (not_lt.mpr (hexp cached hmg))]
        exact hFCnone hmiss
    | none =>
        simp only [hmg]
        exact hFCnone hmiss

/-- C8 witness: an expired entry (age exactly 700 000 ms ≥ TTL) with no
channels cache yields a miss. -/
theorem getChannelToken_ttl_witness :
    (∀ e, mapGet [("5", (⟨JVal.jstr "tok", JVal.jnull, 0⟩ : TokEntry))] "5" = some e →
      tokenCacheTTL ≤ (700000 : Int) - e.timestamp) ∧
    (getChannelToken [("5", ⟨JVal.jstr "tok", JVal.jnull, 0⟩)] none 700000 "5").1 = none := by
  constructor
  · intro e he
    have : e = (⟨JVal.jstr "tok", JVal.jnull, 0⟩ : TokEntry) := by
      simpa [mapGet] using he.symm
    rw [this]
    simp [tokenCacheTTL]
  · exact (getChannelToken_ttl [("5", ⟨JVal.jstr "tok", JVal.jnull, 0⟩)] none 700000 "5").2
      (by
        intro e he
        have : e = (⟨JVal.jstr "tok", JVal.jnull, 0⟩ : TokEntry) := by
          simpa [mapGet] using he.symm
        rw [this]
        simp [tokenCacheTTL])
      (by intro cache hc; simp at hc)

/-- C6 amended: for every raw record whose native id chain
(`id || channel_id || channelId`) is truthy, the channel transforms are
deterministic — two applications to the same input and genre map, whatever
random draws they observe, yield identical output. -/
theorem transform_deterministic_given_native_id (r1 r2 : String)
    (gm : List (String × String)) (mac : String) (ch : JVal)
    (h : (JVal.jsOr (JVal.jsOr (ch.getF "id") (ch.getF "channel_id"))
          (ch.getF "channelId")).truthy = true) :
    transformChannel r1 gm mac ch = transformChannel r2 gm mac ch ∧
    transformMAGChannel r1 ch gm = transformMAGChannel r2 ch gm := by
  constructor
  · simp only [transformChannel, JVal.jsOr_of_truthy (JVal.jstr r1) h,
      JVal.jsOr_of_truthy (JVal.jstr r2) h]
  · simp only [transformMAGChannel, JVal.jsOr_of_truthy (JVal.jstr r1) h,
      JVal.jsOr_of_truthy (JVal.jstr r2) h]

/-- C6 witness: a record with `id: 55` transforms identically under two
different random draws. -/
theorem transform_deterministic_witness :
    (JVal.jsOr (JVal.jsOr ((jobjL [("id", JVal.jnum 55)]).getF "id")
      ((jobjL [("id", JVal.jnum 55)]).getF "channel_id"))
      ((jobjL [("id", JVal.jnum 55)]).getF "channelId")).truthy = true ∧
    transformMAGChannel "0a" (jobjL [("id", JVal.jnum 55)]) [] =
      transformMAGChannel "0b" (jobjL [("id", JVal.jnum 55)]) [] := by
  refine ⟨by decide, ?_⟩
  exact (transform_deterministic_given_native_id "0a" "0b" [] ""
    (jobjL [("id", JVal.jnum 55)]) (by decide)).2

/-- C6 counterexample: a record with no native id receives the random draw as
its placeholder id, so two normalizations of the very same raw record differ
whenever the two draws differ. -/
theorem transform_random_counterexample :
    transformMAGChannel "0a" (jobjL [("name", JVal.jstr "X")]) [] ≠
      transformMAGChannel "0b" (jobjL [("name", JVal.jstr "X")]) [] ∧
    transformChannel "11111111" [] "00:1A:79:00:00:00" (jobjL [("name", JVal.jstr "X")]) ≠
      transformChannel "22222222" [] "00:1A:79:00:00:00" (jobjL [("name", JVal.jstr "X")]) := by
  constructor
  · intro h
    have h2 := congrArg FastMAGChannel.channelId h
    have e1 : (transformMAGChannel "0a" (jobjL [("name", JVal.jstr "X")]) []).channelId
        = "0a" := by
      simp [transformMAGChannel, jsToString, JVal.jsOr, JVal.getF, JObj.findF, jobjL,
        mkObj, JVal.truthy]
    have e2 : (transformMAGChannel "0b" (jobjL [("name", JVal.jstr "X")]) []).channelId
        = "0b" := by
      simp [transformMAGChannel, jsToString, JVal.jsOr, JVal.getF, JObj.findF, jobjL,
        mkObj, JVal.truthy]
    rw [e1, e2] at h2
    exact absurd h2 (by decide)
  · intro h
    have h2 := congrArg
      (fun e => match e with
                | Except.ok c => MagChannel.channelId c
                | Except.error _ => "") h
    have e1 : (fun e => match e with
                | Except.ok c => MagChannel.channelId c
                | Except.error _ => "")
        (transformChannel "11111111" [] "00:1A:79:00:00:00" (jobjL [("name", JVal.jstr "X")]))
        = "11111111" := by
      simp [transformChannel, jsToString, JVal.jsOr, JVal.getF, JObj.findF, jobjL,
        mkObj, JVal.truthy, firstUrlMatch, firstUrlMatchAux, genreLookup]
    have e2 : (fun e => match e with
                | Except.ok c => MagChannel.channelId c
                | Except.error _ => "")
        (transformChannel "22222222" [] "00:1A:79:00:00:00" (jobjL [("name", JVal.jstr "X")]))
        = "22222222" := by
      simp [transformChannel, jsToString, JVal.jsOr, JVal.getF, JObj.findF, jobjL,
        mkObj, JVal.truthy, firstUrlMatch, firstUrlMatchAux, genreLookup]
    rw [e1, e2] at h2
    exact absurd h2 (by decide)

lemma m3uPrefix_ne_empty (s : String) : "m3u_" ++ s ≠ "" := by
  intro h
  have hd := congrArg String.data h
  rw [String.data_append] at hd
  simp at hd

lemma parseExtInf_channelId (line : String) :
    (parseExtInf line).channelId =
      (if (parseExtInf line).tvgId ≠ "" then (parseExtInf line).tvgId
       else (parseExtInf line).name) := rfl

lemma M3UIdInv_push (cs : List M3UChannel) (m : M3UChannel) (url : String)
    (hP : M3UIdInv cs)
    (hm : m.channelId = if m.tvgId ≠ "" then m.tvgId else m.name) :
    M3UIdInv (cs ++ [{ m with
      channelId := if m.channelId ≠ "" then m.channelId else "m3u_" ++ natToString cs.length,
      url := url }]) := by
  intro i hi
  simp only [List.length_append, List.length_singleton] at hi
  by_cases hlt : i < cs.length
  · have hget : (cs ++ [{ m with
        channelId := if m.channelId ≠ "" then m.channelId else "m3u_" ++ natToString cs.length,
        url := url }]).get ⟨i, by simp; omega⟩ = cs.get ⟨i, hlt⟩ := by
      simp only [List.get_eq_getElem]
      exact List.getElem_append_left hlt
    rw [hget]
    exact hP i hlt
  · have hieq : i = cs.length := by omega
    subst hieq
    have hget : (cs ++ [{ m with
        channelId := if m.channelId ≠ "" then m.channelId else "m3u_" ++ natToString cs.length,
        url := url }]).get ⟨cs.length, by simp⟩ = { m with
        channelId := if m.channelId ≠ "" then m.channelId else "m3u_" ++ natToString cs.length,
        url := url } := by
      simp only [List.get_eq_getElem]
      exact List.getElem_concat_length cs _ cs.length rfl _
    rw [hget]
    constructor
    · by_cases hid : m.channelId ≠ ""
      · simp [hid]
      · simp only [hid, if_neg]
        simpa [hid] using m3uPrefix_ne_empty (natToString cs.length)
    · intro htv hnm
      simp only at htv hnm
      have hempty : m.channelId = "" := by
        rw [hm]
        simp [htv, hnm]
      simp [hempty]

lemma m3uStep_inv (acc : List M3UChannel × Option M3UChannel) (raw : String)
    (hP : M3UIdInv acc.1)
    (hQ : ∀ m, acc.2 = some m →
      m.channelId = if m.tvgId ≠ "" then m.tvgId else m.name) :
    M3UIdInv (m3uStep acc raw).1 ∧
    (∀ m, (m3uStep acc raw).2 = some m →
      m.channelId = if m.tvgId ≠ "" then m.tvgId else m.name) := by
  obtain ⟨cs, cur⟩ := acc
  unfold m3uStep
  by_cases h1 : strStartsWith (jsTrim raw) "#EXTINF:" = true
  · simp only [h1, if_true]
    refine ⟨hP, ?_⟩
    intro m hm
    simp only [Option.some.injEq] at hm
    rw [← hm]
    exact parseExtInf_channelId _
  · have h1' : strStartsWith (jsTrim raw) "#EXTINF:" = false := by
      revert h1; cases strStartsWith (jsTrim raw) "#EXTINF:" <;> simp
    simp only [h1', Bool.false_eq_true, if_false]
    cases cur with
    | none => exact ⟨hP, by simp⟩
    | some m =>
        dsimp only
        by_cases h2 : (jsTrim raw ≠ "" ∧ ¬ strStartsWith (jsTrim raw) "#" = true)
        · rw [if_pos h2]
          exact ⟨M3UIdInv_push cs m (jsTrim raw) hP (hQ m rfl), by simp⟩
        · rw [if_neg h2]
          exact ⟨hP, hQ⟩

lemma m3uFold_inv (lines : List String) :
    ∀ acc : List M3UChannel × Option M3UChannel,
      M3UIdInv acc.1 →
      (∀ m, acc.2 = some m →
        m.channelId = if m.tvgId ≠ "" then m.tvgId else m.name) →
      M3UIdInv (lines.foldl m3uStep acc).1 ∧
      (∀ m, (lines.foldl m3uStep acc).2 = some m →
        m.channelId = if m.tvgId ≠ "" then m.tvgId else m.name) := by
  induction lines with
  | nil => intro acc hP hQ; exact ⟨hP, hQ⟩
  | cons raw rest ih =>
      intro acc hP hQ
      rw [List.foldl_cons]
      have hstep := m3uStep_inv acc raw hP hQ
      exact ih (m3uStep acc raw) hstep.1 hstep.2

lemma syncM3U_inv (text : String) : M3UIdInv (syncM3UText text) := by
  unfold syncM3UText
  have hfold := m3uFold_inv ((splitOnChar '\n' text).dropLast) ([], none)
    (by intro i hi; simp at hi) (by simp)
  cases hcur : (((splitOnChar '\n' text).dropLast).foldl m3uStep ([], none)).2 with
  | none => simpa only [hcur] using hfold.1
  | some m =>
      simp only [hcur]
      by_cases hrem : jsTrim (((splitOnChar '\n' text).getLast?).getD "") ≠ ""
      · rw [if_pos hrem]
        exact M3UIdInv_push _ m _ hfold.1 (hfold.2 m hcur)
      · rw [if_neg hrem]
        exact hfold.1

/-- C7 amended: every record assembled by the M3U pass carries a non-empty
channel id; records missing both a `tvg-id` and a display name receive the
position-based placeholder `m3u_<index>`, and those placeholders are pairwise
distinct within the pass; a MAG record with no truthy native id receives the
random draw itself as its id (so ids of such records are unique only as far
as the draws are). -/
theorem m3u_placeholder_ids (text : String) :
    (∀ c ∈ syncM3UText text, c.channelId ≠ "") ∧
    (∀ i (hi : i < (syncM3UText text).length),
      ((syncM3UText text).get ⟨i, hi⟩).tvgId = "" →
      ((syncM3UText text).get ⟨i, hi⟩).name = "" →
      ((syncM3UText text).get ⟨i, hi⟩).channelId = "m3u_" ++ natToString i) ∧
    (∀ i j (hi : i < (syncM3UText text).length) (hj : j < (syncM3UText text).length),
      i ≠ j →
      ((syncM3UText text).get ⟨i, hi⟩).tvgId = "" →
      ((syncM3UText text).get ⟨i, hi⟩).name = "" →
      ((syncM3UText text).get ⟨j, hj⟩).tvgId = "" →
      ((syncM3UText text).get ⟨j, hj⟩).name = "" →
      ((syncM3UText text).get ⟨i, hi⟩).channelId ≠
        ((syncM3UText text).get ⟨j, hj⟩).channelId) ∧
    (∀ (rand : String) (ch : JVal) (gm : List (String × String)),
      (JVal.jsOr (JVal.jsOr (ch.getF "id") (ch.getF "channel_id"))
        (ch.getF "channelId")).truthy = false →
      (transformMAGChannel rand ch gm).channelId = rand) := by
  have hinv := syncM3U_inv text
  refine ⟨?_, ?_, ?_, ?_⟩
  · intro c hc
    obtain ⟨n, hn⟩ := List.mem_iff_get.mp hc
    rw [← hn]
    exact (hinv n.1 n.2).1
  · intro i hi ht hn
    exact (hinv i hi).2 ht hn
  · intro i j hi hj hij ht1 hn1 ht2 hn2 heq
    rw [(hinv i hi).2 ht1 hn1, (hinv j hj).2 ht2 hn2] at heq
    have hd := congrArg String.data heq
    rw [String.data_append, String.data_append] at hd
    exact hij (natToString_injective (String.ext (List.append_cancel_left hd)))
  · intro rand ch gm hfalsy
    simp [transformMAGChannel, JVal.jsOr_of_falsy _ hfalsy, jsToString]

/-- C7 counterexample: two M3U records without a `tvg-id` but sharing the
name `CNN` are both assigned the channel id `CNN` — the ids of records
missing a native id are not unique within the pass. -/
theorem m3u_name_collision_counterexample :
    (syncM3UText "#EXTINF:-1,CNN\nhttp://a/1\n#EXTINF:-1,CNN\nhttp://b/2\n").map
        M3UChannel.channelId = ["CNN", "CNN"] ∧
    (syncM3UText "#EXTINF:-1,CNN\nhttp://a/1\n#EXTINF:-1,CNN\nhttp://b/2\n").map
        M3UChannel.tvgId = ["", ""] ∧
    ¬ ((syncM3UText "#EXTINF:-1,CNN\nhttp://a/1\n#EXTINF:-1,CNN\nhttp://b/2\n").map
        M3UChannel.channelId).Nodup := by
  refine ⟨by decide, by decide, by decide⟩

/-- C7 witness: a pass with two nameless, id-less records gets the distinct
placeholders `m3u_0` and `m3u_1`. -/
theorem m3u_placeholder_witness :
    (0 : Nat) < (syncM3UText "#EXTINF:-1,\nhttp://a/1\n#EXTINF:-1,\nhttp://b/2\n").length ∧
    (1 : Nat) < (syncM3UText "#EXTINF:-1,\nhttp://a/1\n#EXTINF:-1,\nhttp://b/2\n").length ∧
    ((syncM3UText "#EXTINF:-1,\nhttp://a/1\n#EXTINF:-1,\nhttp://b/2\n").get
      ⟨0, by decide⟩).channelId ≠
    ((syncM3UText "#EXTINF:-1,\nhttp://a/1\n#EXTINF:-1,\nhttp://b/2\n").get
      ⟨1, by decide⟩).channelId := by
  refine ⟨by decide, by decide, ?_⟩
  exact (m3u_placeholder_ids "#EXTINF:-1,\nhttp://a/1\n#EXTINF:-1,\nhttp://b/2\n").2.2.1
    0 1 (by decide) (by decide) (by decide) (by decide) (by decide) (by decide) (by decide)

/-! ## C5: bulk persistence lemmas -/

lemma chunksOfAux_join {α : Type} (n : Nat) :
    ∀ (fuel : Nat) (l : List α), l.length ≤ fuel → (chunksOfAux n fuel l).flatten = l := by
  intro fuel
  induction fuel with
  | zero =>
      intro l h
      have hl : l = [] := List.length_eq_zero.mp (Nat.le_zero.mp h)
      simp [hl, chunksOfAux]
  | succ fuel ih =>
      intro l h
      by_cases hl : l.isEmpty
      · have : l = [] := by cases l <;> simp_all
        simp [this, chunksOfAux]
      · rw [chunksOfAux, if_neg (by simp [hl]), List.flatten_cons, ih (l.drop (max n 1)) ?_,
          List.take_append_drop]
        have hpos : l.length ≠ 0 := by cases l <;> simp_all
        have hlen : (l.drop (max n 1)).length = l.length - max n 1 := List.length_drop _ _
        have hmax : 1 ≤ max n 1 := le_max_right n 1
        omega

lemma chunksOf_join {α : Type} (n : Nat) (l : List α) : (chunksOf n l).flatten = l :=
  chunksOfAux_join n l.length l le_rfl

lemma upsertChannels_append {α : Type} (pl : PL) (a b : List (String × α)) (store : Store α) :
    upsertChannels pl (a ++ b) store = upsertChannels pl b (upsertChannels pl a store) := by
  simp [upsertChannels, List.foldl_append]

lemma upsert_batches_join {α : Type} (pl : PL) :
    ∀ (bs : List (List (String × α))) (store : Store α),
      bs.foldl (fun st b => upsertChannels pl b st) store = upsertChannels pl bs.flatten store := by
  intro bs
  induction bs with
  | nil => intro store; rfl
  | cons b rest ih =>
      intro store
      rw [List.foldl_cons, ih, ← upsertChannels_append, List.flatten_cons]

lemma upsertOne_self_mem {α : Type} (pid cid : String) (doc : SDoc α) :
    ∀ store : Store α, doc ∈ upsertOne pid cid doc store := by
  intro store
  induction store with
  | nil => simp [upsertOne]
  | cons d rest ih =>
      simp only [upsertOne]
      split
      · simp
      · simp [ih]

lemma upsertOne_mem_of_mem {α : Type} (pid cid : String) (doc : SDoc α) :
    ∀ (store : Store α) (d : SDoc α), d ∈ store →
      ¬(d.playlistId = pid ∧ d.channelId = cid) → d ∈ upsertOne pid cid doc store := by
  intro store
  induction store with
  | nil => intro d hd; simp at hd
  | cons e rest ih =>
      intro d hd hne
      rcases List.mem_cons.mp hd with rfl | hmem
      · simp only [upsertOne]
        split
        · next h => exact absurd h hne
        · simp
      · simp only [upsertOne]
        split
        · simp [hmem]
        · simp [ih d hmem hne]

lemma upsertOne_keys {α : Type} (pid cid : String) (doc : SDoc α)
    (hdoc : doc.playlistId = pid ∧ doc.channelId = cid) :
    ∀ store : Store α, (upsertOne pid cid doc store).map dKey =
      if (pid, cid) ∈ store.map dKey then store.map dKey
      else store.map dKey ++ [(pid, cid)] := by
  intro store
  induction store with
  | nil => simp [upsertOne, dKey, hdoc.1, hdoc.2]
  | cons e rest ih =>
      simp only [upsertOne]
      split
      · next h =>
          have he : dKey e = (pid, cid) := by simp [dKey, h.1, h.2]
          have hdk : dKey doc = (pid, cid) := by simp [dKey, hdoc.1, hdoc.2]
          simp [List.map_cons, he, hdk]
      · next h =>
          have he : dKey e ≠ (pid, cid) := by
            simp only [dKey, Prod.mk.injEq, ne_eq, not_and]
            intro h1 h2
            exact h ⟨h1, h2⟩
          have he' : ((pid, cid) : String × String) ≠ dKey e := Ne.symm he
          simp only [List.map_cons, ih]
          by_cases hmem : ((pid, cid) : String × String) ∈ rest.map dKey
          · simp [hmem, he, he']
          · simp [hmem, he, he']

lemma upsertOne_keys_nodup {α : Type} (pid cid : String) (doc : SDoc α)
    (hdoc : doc.playlistId = pid ∧ doc.channelId = cid) (store : Store α)
    (hstore : (store.map dKey).Nodup) : ((upsertOne pid cid doc store).map dKey).Nodup := by
  rw [upsertOne_keys pid cid doc hdoc store]
  split
  · exact hstore
  · next h =>
      refine List.Nodup.append hstore (List.nodup_singleton _) ?_
      intro a ha hb
      simp only [List.mem_singleton] at hb
      subst hb
      exact h ha

lemma upsertOne_mem {α : Type} (pid cid : String) (doc : SDoc α) :
    ∀ (store : Store α), (store.map dKey).Nodup →
      ∀ d ∈ upsertOne pid cid doc store,
        d = doc ∨ (d ∈ store ∧ ¬(d.playlistId = pid ∧ d.channelId = cid)) := by
  intro store
  induction store with
  | nil =>
      intro _ d hd
      simp only [upsertOne, List.mem_singleton] at hd
      exact Or.inl hd
  | cons e rest ih =>
      intro hnodup d hd
      simp only [List.map_cons, List.nodup_cons] at hnodup
      simp only [upsertOne] at hd
      by_cases hmatch : e.playlistId = pid ∧ e.channelId = cid
      · rw [if_pos hmatch] at hd
        rcases List.mem_cons.mp hd with rfl | hmem
        · exact Or.inl rfl
        · refine Or.inr ⟨List.mem_cons_of_mem _ hmem, ?_⟩
          intro hc
          have hkey : dKey d = (pid, cid) := by simp [dKey, hc.1, hc.2]
          have hekey : dKey e = (pid, cid) := by simp [dKey, hmatch.1, hmatch.2]
          have hm : dKey d ∈ rest.map dKey := List.mem_map_of_mem dKey hmem
          rw [hkey, ← hekey] at hm
          exact hnodup.1 hm
      · rw [if_neg hmatch] at hd
        rcases List.mem_cons.mp hd with rfl | hmem
        · exact Or.inr ⟨List.mem_cons_self _ _, hmatch⟩
        · rcases ih hnodup.2 d hmem with h | ⟨h1, h2⟩
          · exact Or.inl h
          · exact Or.inr ⟨List.mem_cons_of_mem _ h1, h2⟩

lemma upsertChannels_keys_nodup {α : Type} (pl : PL) :
    ∀ (chs : List (String × α)) (store : Store α), (store.map dKey).Nodup →
      ((upsertChannels pl chs store).map dKey).Nodup := by
  intro chs
  induction chs with
  | nil => intro store h; exact h
  | cons c rest ih =>
      intro store h
      exact ih (upsertOne pl.id c.1 (mkDoc pl c) store)
        (upsertOne_keys_nodup pl.id c.1 (mkDoc pl c) ⟨rfl, rfl⟩ store h)

lemma upsertChannels_mem_of_mem {α : Type} (pl : PL) :
    ∀ (chs : List (String × α)) (store : Store α) (d : SDoc α), d ∈ store →
      (∀ ch ∈ chs, ¬(d.playlistId = pl.id ∧ d.channelId = ch.1)) →
      d ∈ upsertChannels pl chs store := by
  intro chs
  induction chs with
  | nil => intro store d hd _; exact hd
  | cons c rest ih =>
      intro store d hd hall
      exact ih (upsertOne pl.id c.1 (mkDoc pl c) store) d
        (upsertOne_mem_of_mem pl.id c.1 (mkDoc pl c) store d hd
          (hall c (List.mem_cons_self _ _)))
        (fun ch hch => hall ch (List.mem_cons_of_mem _ hch))

lemma upsertChannels_mem_doc {α : Type} (pl : PL) :
    ∀ (chs : List (String × α)) (store : Store α), (chs.map Prod.fst).Nodup →
      ∀ ch ∈ chs, mkDoc pl ch ∈ upsertChannels pl chs store := by
  intro chs
  induction chs with
  | nil => intro store _ ch hch; simp at hch
  | cons c rest ih =>
      intro store hids ch hch
      simp only [List.map_cons, List.nodup_cons] at hids
      rcases List.mem_cons.mp hch with rfl | hmem
      · refine upsertChannels_mem_of_mem pl rest _ _
          (upsertOne_self_mem pl.id ch.1 (mkDoc pl ch) store) ?_
        intro c' hc' hcontra
        have hkey : c'.1 = ch.1 := by
          have h2 := hcontra.2
          simp only [mkDoc] at h2
          exact h2.symm
        exact hids.1 (hkey ▸ List.mem_map_of_mem Prod.fst hc')
      · exact ih (upsertOne pl.id c.1 (mkDoc pl c) store) hids.2 ch hmem

lemma upsertChannels_mem {α : Type} (pl : PL) :
    ∀ (chs : List (String × α)) (store : Store α), (store.map dKey).Nodup →
      ∀ d ∈ upsertChannels pl chs store,
        (d ∈ store ∧ ∀ ch ∈ chs, ¬(d.playlistId = pl.id ∧ d.channelId = ch.1)) ∨
        ∃ ch ∈ chs, d = mkDoc pl ch := by
  intro chs
  induction chs with
  | nil =>
      intro store _ d hd
      exact Or.inl ⟨hd, by simp⟩
  | cons c rest ih =>
      intro store hnodup d hd
      have hnodup1 := upsertOne_keys_nodup pl.id c.1 (mkDoc pl c) ⟨rfl, rfl⟩ store hnodup
      rcases ih (upsertOne pl.id c.1 (mkDoc pl c) store) hnodup1 d hd with ⟨hmem1, hall⟩ | ⟨ch, hch, rfl⟩
      · rcases upsertOne_mem pl.id c.1 (mkDoc pl c) store hnodup d hmem1 with rfl | ⟨hst, hne⟩
        · exact Or.inr ⟨c, List.mem_cons_self _ _, rfl⟩
        · refine Or.inl ⟨hst, ?_⟩
          intro ch hch
          rcases List.mem_cons.mp hch with rfl | hch'
          · exact hne
          · exact hall ch hch'
      · exact Or.inr ⟨ch, List.mem_cons_of_mem _ hch, rfl⟩

lemma upsertOne_filter_other {α : Type} (pid cid : String) (doc : SDoc α)
    (hdoc : doc.playlistId = pid) :
    ∀ store : Store α,
      (upsertOne pid cid doc store).filter (fun d => d.playlistId ≠ pid) =
      store.filter (fun d => d.playlistId ≠ pid) := by
  intro store
  induction store with
  | nil => simp [upsertOne, hdoc]
  | cons e rest ih =>
      simp only [upsertOne]
      split
      · next h => simp [List.filter_cons, hdoc, h.1]
      · simp only [List.filter_cons, ih]

lemma upsertChannels_filter_other {α : Type} (pl : PL) :
    ∀ (chs : List (String × α)) (store : Store α),
      (upsertChannels pl chs store).filter (fun d => d.playlistId ≠ pl.id) =
      store.filter (fun d => d.playlistId ≠ pl.id) := by
  intro chs
  induction chs with
  | nil => intro store; rfl
  | cons c rest ih =>
      intro store
      exact (ih (upsertOne pl.id c.1 (mkDoc pl c) store)).trans
        (upsertOne_filter_other pl.id c.1 (mkDoc pl c) rfl store)

lemma filter_filter_other {α : Type} (pid : String) (q : SDoc α → Prop) [DecidablePred q] :
    ∀ store : Store α,
      (store.filter (fun d => ¬(d.playlistId = pid ∧ q d))).filter
          (fun d => d.playlistId ≠ pid) =
      store.filter (fun d => d.playlistId ≠ pid) := by
  intro store
  rw [List.filter_filter]
  apply List.filter_congr
  intro d _
  by_cases he : d.playlistId = pid <;> by_cases hq : q d <;> simp [he, hq]

lemma mkDoc_keys {α : Type} (pl : PL) (channels : List (String × α)) :
    (channels.map (mkDoc pl)).map dKey =
      (channels.map Prod.fst).map (fun x => (pl.id, x)) := by
  rw [List.map_map, List.map_map]
  exact List.map_congr_left (fun ch _ => rfl)

lemma mkDoc_map_nodup {α : Type} (pl : PL) (channels : List (String × α))
    (hids : (channels.map Prod.fst).Nodup) : (channels.map (mkDoc pl)).Nodup := by
  refine List.Nodup.of_map dKey ?_
  rw [mkDoc_keys]
  exact hids.map (fun a b h => by simpa using h)

lemma perm_store_channels {α : Type} (pl : PL) (channels : List (String × α)) (l : Store α)
    (hids : (channels.map Prod.fst).Nodup) (hlkeys : (l.map dKey).Nodup)
    (hmem : ∀ d, d ∈ l ↔ d ∈ channels.map (mkDoc pl)) :
    l.Perm (channels.map (mkDoc pl)) :=
  (List.perm_ext_iff_of_nodup (List.Nodup.of_map dKey hlkeys)
    (mkDoc_map_nodup pl channels hids)).mpr hmem

lemma updateChannelsBulk_char {α : Type} (channels : List (String × α)) (pl : PL)
    (store : Store α) :
    ∃ (td : List String) (store1 : Store α),
      td = ((store.filter (fun d => d.playlistId = pl.id)).filter
            (fun d => d.channelId ∉ channels.map Prod.fst)).map (fun d => d.channelId) ∧
      store1 = (if td.isEmpty then store
          else store.filter (fun d => ¬(d.playlistId = pl.id ∧ d.channelId ∈ td))) ∧
      updateChannelsBulk channels pl store =
        ((chunksOf LEGACY_BATCH_SIZE channels).foldl (fun st b => upsertChannels pl b st) store1,
         (if td.isEmpty then [] else [DbOp.deleteIds td]) ++
           (chunksOf LEGACY_BATCH_SIZE channels).map (fun b => DbOp.upsertBatch b.length)) :=
  ⟨_, _, rfl, rfl, rfl⟩

lemma bulkSave_result {α : Type} (channels : List (String × α)) (pl : PL) (store : Store α)
    (hne : channels ≠ []) :
    (bulkSave channels pl store).1 =
      (upsertChannels pl channels store).filter
        (fun d => ¬(d.playlistId = pl.id ∧ d.channelId ∉ channels.map Prod.fst)) ∧
    (bulkSave channels pl store).2 =
      (chunksOf DB_BATCH_SIZE channels).map (fun b => DbOp.upsertBatch b.length) ++
        [DbOp.deleteNotIn (channels.map Prod.fst)] := by
  have hne' : channels.isEmpty = false := by
    cases channels with
    | nil => exact absurd rfl hne
    | cons a l => rfl
  constructor
  · simp only [bulkSave, hne', Bool.false_eq_true, if_false]
    rw [upsert_batches_join, chunksOf_join]
  · simp only [bulkSave, hne', Bool.false_eq_true, if_false]

lemma bulkSave_perm {α : Type} (channels : List (String × α)) (pl : PL) (store : Store α)
    (hne : channels ≠ []) (hids : (channels.map Prod.fst).Nodup)
    (hstore : (store.map dKey).Nodup) :
    ((bulkSave channels pl store).1.filter (fun d => d.playlistId = pl.id)).Perm
        (channels.map (mkDoc pl)) ∧
    (bulkSave channels pl store).1.filter (fun d => d.playlistId ≠ pl.id) =
      store.filter (fun d => d.playlistId ≠ pl.id) := by
  have hres := (bulkSave_result channels pl store hne).1
  have hAnodup : ((upsertChannels pl channels store).map dKey).Nodup :=
    upsertChannels_keys_nodup pl channels store hstore
  constructor
  · apply perm_store_channels pl channels _ hids
    · have hsub : ((bulkSave channels pl store).1.filter
          (fun d => d.playlistId = pl.id)).Sublist (upsertChannels pl channels store) := by
        rw [hres]
        exact (List.filter_sublist _).trans (List.filter_sublist _)
      exact List.Nodup.sublist (hsub.map dKey) hAnodup
    · intro d
      constructor
      · intro hd
        rw [hres] at hd
        have hd1 := List.mem_filter.mp hd
        have hpid : d.playlistId = pl.id := by simpa using hd1.2
        have hd2 := List.mem_filter.mp hd1.1
        have hdel : ¬(d.playlistId = pl.id ∧ d.channelId ∉ channels.map Prod.fst) :=
          of_decide_eq_true hd2.2
        have hcid : d.channelId ∈ channels.map Prod.fst := by
          by_contra hc
          exact hdel ⟨hpid, hc⟩
        rcases upsertChannels_mem pl channels store hstore d hd2.1 with ⟨_, hall⟩ | ⟨ch, hch, rfl⟩
        · rcases List.mem_map.mp hcid with ⟨ch, hch, hcheq⟩
          exact absurd ⟨hpid, hcheq.symm⟩ (hall ch hch)
        · exact List.mem_map_of_mem _ hch
      · intro hd
        rcases List.mem_map.mp hd with ⟨ch, hch, rfl⟩
        rw [hres]
        refine List.mem_filter.mpr ⟨List.mem_filter.mpr ⟨?_, ?_⟩, ?_⟩
        · exact upsertChannels_mem_doc pl channels store hids ch hch
        · have hin : ch.1 ∈ channels.map Prod.fst := List.mem_map_of_mem _ hch
          simp [mkDoc, hin]
        · simp [mkDoc]
  · rw [hres, filter_filter_other pl.id (fun d => d.channelId ∉ channels.map Prod.fst),
      upsertChannels_filter_other]

lemma updateChannelsBulk_perm {α : Type} (channels : List (String × α)) (pl : PL)
    (store : Store α) (hids : (channels.map Prod.fst).Nodup)
    (hstore : (store.map dKey).Nodup) :
    ((updateChannelsBulk channels pl store).1.filter (fun d => d.playlistId = pl.id)).Perm
        (channels.map (mkDoc pl)) ∧
    (updateChannelsBulk channels pl store).1.filter (fun d => d.playlistId ≠ pl.id) =
      store.filter (fun d => d.playlistId ≠ pl.id) ∧
    (∃ dels, (updateChannelsBulk channels pl store).2 =
      dels ++ (chunksOf LEGACY_BATCH_SIZE channels).map (fun b => DbOp.upsertBatch b.length) ∧
      (dels = [] ∨ ∃ killed, dels = [DbOp.deleteIds killed])) := by
  obtain ⟨td, store1, htd, hstore1, heq⟩ := updateChannelsBulk_char channels pl store
  have hfold : (updateChannelsBulk channels pl store).1 = upsertChannels pl channels store1 := by
    rw [heq]
    show (chunksOf LEGACY_BATCH_SIZE channels).foldl (fun st b => upsertChannels pl b st) store1 = _
    rw [upsert_batches_join, chunksOf_join]
  have h1nodup : (store1.map dKey).Nodup := by
    by_cases hemp : td.isEmpty
    · rw [hstore1, if_pos hemp]; exact hstore
    · rw [hstore1, if_neg hemp]
      exact List.Nodup.sublist ((List.filter_sublist store).map dKey) hstore
  have hold : ∀ d ∈ store1, d.playlistId = pl.id → d.channelId ∈ channels.map Prod.fst := by
    intro d hd hpid
    by_cases hemp : td.isEmpty
    · rw [hstore1, if_pos hemp] at hd
      have htd0 : td = [] := by
        cases htdc : td with
        | nil => rfl
        | cons a l => rw [htdc] at hemp; simp at hemp
      rw [htd0] at htd
      have hfil : ((store.filter (fun d => d.playlistId = pl.id)).filter
          (fun d => d.channelId ∉ channels.map Prod.fst)) = [] := List.map_eq_nil_iff.mp htd.symm
      by_contra hc
      have hmem : d ∈ (store.filter (fun d => d.playlistId = pl.id)).filter
          (fun d => d.channelId ∉ channels.map Prod.fst) :=
        List.mem_filter.mpr ⟨List.mem_filter.mpr ⟨hd, decide_eq_true hpid⟩, decide_eq_true hc⟩
      rw [hfil] at hmem
      simp at hmem
    · rw [hstore1, if_neg hemp] at hd
      have hd1 := List.mem_filter.mp hd
      have hnotdel : ¬(d.playlistId = pl.id ∧ d.channelId ∈ td) := of_decide_eq_true hd1.2
      by_contra hc
      apply hnotdel
      refine ⟨hpid, ?_⟩
      have hmem2 : d ∈ (store.filter (fun x => x.playlistId = pl.id)).filter
          (fun x => x.channelId ∉ channels.map Prod.fst) := by
        refine List.mem_filter.mpr ⟨List.mem_filter.mpr ⟨hd1.1, ?_⟩, ?_⟩
        · exact decide_eq_true hpid
        · exact decide_eq_true hc
      rw [htd]
      exact List.mem_map_of_mem (fun d => d.channelId) hmem2
  refine ⟨?_, ?_, ?_⟩
  · rw [hfold]
    apply perm_store_channels pl channels _ hids
    · exact List.Nodup.sublist ((List.filter_sublist _).map dKey)
        (upsertChannels_keys_nodup pl channels store1 h1nodup)
    · intro d
      constructor
      · intro hd
        have hd1 := List.mem_filter.mp hd
        have hpid : d.playlistId = pl.id := by simpa using hd1.2
        rcases upsertChannels_mem pl channels store1 h1nodup d hd1.1 with ⟨hmem, hall⟩ | ⟨ch, hch, rfl⟩
        · have hcid := hold d hmem hpid
          rcases List.mem_map.mp hcid with ⟨ch, hch, hcheq⟩
          exact absurd ⟨hpid, hcheq.symm⟩ (hall ch hch)
        · exact List.mem_map_of_mem _ hch
      · intro hd
        rcases List.mem_map.mp hd with ⟨ch, hch, rfl⟩
        exact List.mem_filter.mpr
          ⟨upsertChannels_mem_doc pl channels store1 hids ch hch, by simp [mkDoc]⟩
  · rw [hfold, upsertChannels_filter_other]
    by_cases hemp : td.isEmpty
    · rw [hstore1, if_pos hemp]
    · rw [hstore1, if_neg hemp]
      exact filter_filter_other pl.id (fun d => d.channelId ∈ td) store
  · refine ⟨if td.isEmpty then [] else [DbOp.deleteIds td], ?_, ?_⟩
    · rw [heq]
    · by_cases hemp : td.isEmpty
      · left; rw [if_pos hemp]
      · right; exact ⟨td, by rw [if_neg hemp]⟩

/-- **C5** (corrected).  For a sync of a non-empty canonical channel list
with pairwise-distinct ids into a store with duplicate-free `(playlistId,
channelId)` keys, both persistence paths leave exactly the documents built
from the latest source for that playlist (a permutation of
`channels.map (mkDoc pl)`, hence exactly `N` records), leave other
playlists' documents untouched, and issue the upserts in fixed-size
batches.  The fast path (`_bulkSave`) deletes the stale channels only
after all upsert batches, as claimed; the legacy path
(`updateChannelsBulk`) issues its delete (if any) before the upsert
batches, contrary to the claimed ordering.  The unconditional "exactly N
records" also fails when the canonical list repeats an id (see the
counterexample). -/
theorem c5_sync_store_matches_source {α : Type} (channels : List (String × α)) (pl : PL)
    (store : Store α) (hne : channels ≠ [])
    (hids : (channels.map Prod.fst).Nodup) (hstore : (store.map dKey).Nodup) :
    ((bulkSave channels pl store).1.filter (fun d => d.playlistId = pl.id)).Perm
        (channels.map (mkDoc pl)) ∧
    ((updateChannelsBulk channels pl store).1.filter (fun d => d.playlistId = pl.id)).Perm
        (channels.map (mkDoc pl)) ∧
    ((bulkSave channels pl store).1.filter (fun d => d.playlistId = pl.id)).length =
        channels.length ∧
    ((updateChannelsBulk channels pl store).1.filter (fun d => d.playlistId = pl.id)).length =
        channels.length ∧
    (bulkSave channels pl store).1.filter (fun d => d.playlistId ≠ pl.id) =
        store.filter (fun d => d.playlistId ≠ pl.id) ∧
    (updateChannelsBulk channels pl store).1.filter (fun d => d.playlistId ≠ pl.id) =
        store.filter (fun d => d.playlistId ≠ pl.id) ∧
    (bulkSave channels pl store).2 =
        (chunksOf DB_BATCH_SIZE channels).map (fun b => DbOp.upsertBatch b.length) ++
          [DbOp.deleteNotIn (channels.map Prod.fst)] ∧
    (∃ dels, (updateChannelsBulk channels pl store).2 =
        dels ++ (chunksOf LEGACY_BATCH_SIZE channels).map (fun b => DbOp.upsertBatch b.length) ∧
        (dels = [] ∨ ∃ killed, dels = [DbOp.deleteIds killed])) := by
  obtain ⟨hfp, hff⟩ := bulkSave_perm channels pl store hne hids hstore
  obtain ⟨hlp, hlf, hlt⟩ := updateChannelsBulk_perm channels pl store hids hstore
  exact ⟨hfp, hlp,
    by rw [hfp.length_eq, List.length_map],
    by rw [hlp.length_eq, List.length_map],
    hff, hlf, (bulkSave_result channels pl store hne).2, hlt⟩

/-- C5 counterexample: with duplicate canonical ids (which M3U name
collisions do produce) the fast save path persists fewer than `N` records
for an `N`-channel sync, and the legacy path issues its `deleteMany`
before any upsert batch rather than "only after all upsert batches
commit". -/
theorem c5_counterexample :
    (∃ (channels : List (String × Nat)) (pl : PL),
      channels ≠ [] ∧ (bulkSave channels pl []).1.length ≠ channels.length) ∧
    (∃ (channels : List (String × Nat)) (pl : PL) (store : Store Nat),
      (updateChannelsBulk channels pl store).2.head? = some (DbOp.deleteIds ["b"]) ∧
      (updateChannelsBulk channels pl store).2.length = 2) := by
  constructor
  · exact ⟨[("a", 0), ("a", 1)], ⟨"p", []⟩, by decide, by decide⟩
  · exact ⟨[("a", 0)], ⟨"p", []⟩, [mkDoc ⟨"p", []⟩ ("b", 5)], by decide, by decide⟩

/-- C5 witness: the corrected theorem applied to the one-channel list `a`
of playlist `p` over the empty store. -/
theorem c5_sync_witness :
    (([("a", (0 : Nat))] : List (String × Nat)) ≠ [] ∧
      (([("a", (0 : Nat))] : List (String × Nat)).map Prod.fst).Nodup ∧
      (([] : Store Nat).map dKey).Nodup) ∧
    ((bulkSave [("a", (0 : Nat))] (⟨"p", []⟩ : PL) []).1.filter
        (fun d => d.playlistId = (⟨"p", []⟩ : PL).id)).Perm
      ([("a", (0 : Nat))].map (mkDoc ⟨"p", []⟩)) :=
  ⟨⟨by decide, by decide, by decide⟩,
    (c5_sync_store_matches_source [("a", 0)] ⟨"p", []⟩ [] (by decide) (by decide)
      (by decide)).1⟩

/-- C9 witness: killing the nonexistent pair `("m","1")` over the empty
connection table leaves the table unchanged, answers `{success:false}`
with the `Stream not found` message, and performs no proxy action. -/
theorem killStream_kill_or_noop_witness :
    deleteStreamEndpoint ([] : ConnMap) "m" "1" =
      ([], ⟨false, "Stream not found"⟩, []) :=
  (killStream_kill_or_noop [] "m" "1").1 rfl

end IPTV
